import Mathlib

/-!
# Battleship server `hw4.c`: a shallow embedding

The C program is a two-player grid game served over two sockets.  This file
embeds its protocol engine:

* C `int` and `char` values are `Int`.  A `%d` conversion of `sscanf` stores
  its value the way the C library of the platform does: the number is clamped
  to the range of `long` and then reduced modulo 2^32 into the range of `int`
  (`toInt32`), so every parsed field lies in `[-2^31, 2^31)`.  The sums
  `column + dx` and `row + dy` with `0 ≤ dx, dy ≤ 3` are not wrapped: they
  are only compared against the board bounds, and a wrapped sum would be
  negative and fail the same test.
* `char **cells` is a list of rows, `cells[y][x]` being column `x` of row `y`.
* Memory obtained from `malloc` holds unspecified values until it is written.
  The prior contents of the four rows that `createShip` allocates are the
  explicit parameter `Heap`.
* An access outside an array (the shape table, the cell grid, `ships[5]`) has
  no defined result in C; the embedding reports it as a `Fault`.
* `malloc` may return `NULL`.  For the boards the answers of `malloc` are the
  explicit parameter `Alloc`; a refused request makes `initializeBoard` call
  `exit(EXIT_FAILURE)`, reported as `Fault.allocation`.  The requests of
  `createShip` (one of 32 bytes, four of 8 bytes) are taken to succeed.
* Lines written to a client are values of `Reply`; `Reply.wire` gives the
  bytes the C code passes to `write_data`.
-/

set_option maxRecDepth 20000

namespace Hw4

/-- Ways an execution leaves the normal course: an access whose behaviour the
C language leaves undefined (`tableIndex`, `cellIndex`, `shipsIndex`,
`playersIndex`), or the call `exit(EXIT_FAILURE)` after `malloc` returned
`NULL` for a board (`allocation`). -/
inductive Fault where
  | tableIndex
  | cellIndex
  | shipsIndex
  | playersIndex
  | allocation
  deriving DecidableEq, Repr

deriving instance DecidableEq for Except

/-- Lines the server writes to a client. -/
inductive Reply where
  | ack
  | error (code : Int)
  | hit
  | miss
  | win
  deriving DecidableEq, Repr

/-- Bytes of a reply as passed to `write_data`. -/
def Reply.wire : Reply → String
  | .ack => "A\n"
  | .error code => "E " ++ toString code ++ "\n"
  | .hit => "H\n"
  | .miss => "M\n"
  | .win => "W\n"

/-- The C `struct Board`. -/
structure Board where
  width : Int
  height : Int
  cells : List (List Int)
  deriving DecidableEq, Repr

/-- The C `struct Piece`. -/
structure Piece where
  type : Int
  rotation : Int
  column : Int
  row : Int
  deriving DecidableEq, Repr

/-- The C `struct Player`; `ships` is the array `Piece ships[5]`. -/
structure Player where
  board : Board
  ships : List Piece
  shipCount : Int
  shipsRemaining : Int
  client_fd : Int
  deriving DecidableEq, Repr

/-- Number of rows of a shape, the C macro `SHIP_SIZE`. -/
def SHIP_SIZE : Nat := 4

/-- The C table `tetrisPieces[7][4][4][2]`, each innermost pair as `(dx, dy)`. -/
def tetrisPieces : List (List (List (Int × Int))) :=
  [ [ [(0, 0), (1, 0), (0, 1), (1, 1)],
      [(0, 0), (1, 0), (0, 1), (1, 1)],
      [(0, 0), (1, 0), (0, 1), (1, 1)],
      [(0, 0), (1, 0), (0, 1), (1, 1)] ],
    [ [(0, 0), (0, 1), (0, 2), (0, 3)],
      [(0, 0), (1, 0), (2, 0), (3, 0)],
      [(0, 0), (0, 1), (0, 2), (0, 3)],
      [(0, 0), (1, 0), (2, 0), (3, 0)] ],
    [ [(0, 0), (1, 0), (1, 1), (2, 1)],
      [(1, 0), (1, 1), (0, 1), (0, 2)],
      [(0, 0), (1, 0), (1, 1), (2, 1)],
      [(1, 0), (1, 1), (0, 1), (0, 2)] ],
    [ [(0, 0), (1, 0), (2, 0), (2, 1)],
      [(0, 1), (1, 1), (2, 1), (2, 0)],
      [(0, 0), (0, 1), (1, 1), (2, 1)],
      [(0, 0), (0, 1), (0, 2), (1, 0)] ],
    [ [(0, 0), (1, 0), (1, 1), (2, 1)],
      [(0, 1), (1, 1), (1, 0), (2, 0)],
      [(0, 0), (1, 0), (1, 1), (2, 1)],
      [(0, 1), (1, 1), (1, 0), (2, 0)] ],
    [ [(0, 0), (0, 1), (0, 2), (1, 2)],
      [(0, 0), (1, 0), (2, 0), (2, 1)],
      [(0, 0), (1, 0), (1, 1), (1, 2)],
      [(0, 0), (0, 1), (1, 0), (2, 0)] ],
    [ [(0, 0), (1, 0), (2, 0), (1, 1)],
      [(1, 0), (1, 1), (1, 2), (0, 1)],
      [(0, 1), (1, 1), (2, 1), (1, 0)],
      [(1, 0), (1, 1), (1, 2), (2, 1)] ] ]

/-- The sub-array `tetrisPieces[type][rotation]`; an index outside the table
is a fault. -/
def tableRow (type rotation : Int) : Except Fault (List (Int × Int)) :=
  if 0 ≤ type ∧ type < 7 ∧ 0 ≤ rotation ∧ rotation < 4 then
    match (tetrisPieces.getD type.toNat [])[rotation.toNat]? with
    | some entry => .ok entry
    | none => .error .tableIndex
  else .error .tableIndex

/-- Prior contents of the rows handed out by `malloc`: row `i` holds
`heap i` until the program writes it. -/
abbrev Heap := Nat → Int × Int

/-- The copy loop of `createShip` (source lines 238-244) from entry `i` on:
`idx` is the next row to write, the loop stops at the first `(0, 0)` entry. -/
def createShipFill : List (Int × Int) → Nat → List (Int × Int) → List (Int × Int)
  | [], _, shape => shape
  | e :: rest, idx, shape =>
      if e.1 = 0 ∧ e.2 = 0 then shape
      else createShipFill rest (idx + 1) (shape.set idx e)

/-- The number of rows the copy loop of `createShip` writes: the final value
of its local `idx`. -/
def createShipCount : List (Int × Int) → Nat → Nat
  | [], idx => idx
  | e :: rest, idx => if e.1 = 0 ∧ e.2 = 0 then idx else createShipCount rest (idx + 1)

/-- The C `createShip`: four freshly allocated rows, of which the copy loop
overwrites a prefix with table entries. -/
def createShip (heap : Heap) (type rotation : Int) : Except Fault (List (Int × Int)) :=
  match tableRow type rotation with
  | .ok entry => .ok (createShipFill entry 0 ((List.range SHIP_SIZE).map heap))
  | .error f => .error f

/-- The read `board->cells[y][x]`, defined only inside the allocated grid. -/
def cellAt (board : Board) (x y : Int) : Option Int :=
  if 0 ≤ x ∧ 0 ≤ y then
    match board.cells[y.toNat]? with
    | some r => r[x.toNat]?
    | none => none
  else none

/-- The loop of `isValidPlacement` (source lines 259-267) over the rows of
`shape` that remain. -/
def isValidLoop (board : Board) (piece : Piece) : List (Int × Int) → Except Fault Int
  | [] => .ok 1
  | s :: rest =>
      let x := piece.column + s.1
      let y := piece.row + s.2
      if x < 0 ∨ x ≥ board.width ∨ y < 0 ∨ y ≥ board.height then .ok 0
      else
        match cellAt board x y with
        | none => .error .cellIndex
        | some c => if c ≠ 0 then .ok 0 else isValidLoop board piece rest

/-- The C `isValidPlacement`; `heap` is what `malloc` left in the shape rows. -/
def isValidPlacement (heap : Heap) (board : Board) (piece : Piece) : Except Fault Int :=
  match createShip heap piece.type piece.rotation with
  | .ok shape => isValidLoop board piece shape
  | .error f => .error f

/-- The write `board->cells[y][x] = v`, defined only inside the allocated grid. -/
def cellSet (board : Board) (x y v : Int) : Except Fault Board :=
  match cellAt board x y with
  | some _ =>
      .ok { board with
            cells := board.cells.set y.toNat ((board.cells.getD y.toNat []).set x.toNat v) }
  | none => .error .cellIndex

/-- The loop of `placeShip` (source lines 277-282) over the rows of `shape`
that remain. -/
def placeShipLoop (piece : Piece) : List (Int × Int) → Board → Except Fault Board
  | [], board => .ok board
  | s :: rest, board =>
      match cellSet board (piece.column + s.1) (piece.row + s.2) 1 with
      | .ok board1 => placeShipLoop piece rest board1
      | .error f => .error f

/-- The C `placeShip`; `heap` is what `malloc` left in the shape rows of this
second call of `createShip`. -/
def placeShip (heap : Heap) (board : Board) (piece : Piece) : Except Fault Board :=
  match createShip heap piece.type piece.rotation with
  | .ok shape => placeShipLoop piece shape board
  | .error f => .error f

/-- The store `player->ships[i] = piece` into the array `Piece ships[5]`. -/
def storeShip (ships : List Piece) (i : Int) (piece : Piece) : Except Fault (List Piece) :=
  if 0 ≤ i ∧ i < 5 then .ok (ships.set i.toNat piece) else .error .shipsIndex

/-- The C `isspace` on the bytes of a packet. -/
def isspace (c : Char) : Bool :=
  c = ' ' || c.toNat = 9 || c.toNat = 10 || c.toNat = 11 || c.toNat = 12 || c.toNat = 13

/-- Skip the white space a `%d` conversion or a blank in a format skips. -/
def skipSpace : List Char → List Char
  | [] => []
  | c :: cs => if isspace c then skipSpace cs else c :: cs

/-- Read the decimal digits at the head of the input, accumulating their value. -/
def scanDigits : List Char → Nat → Nat × List Char
  | [], acc => (acc, [])
  | c :: cs, acc =>
      if c.isDigit then scanDigits cs (10 * acc + (c.toNat - 48)) else (acc, c :: cs)

/-- The value the conversion has as a `long`: a number outside the range of
`long` is replaced by `LONG_MAX` or `LONG_MIN`, as `strtol` does. -/
def clampLong (v : Int) : Int :=
  if v > 9223372036854775807 then 9223372036854775807
  else if v < -9223372036854775808 then -9223372036854775808
  else v

/-- Storing a `long` into an `int`: the value modulo 2^32 in `[-2^31, 2^31)`. -/
def toInt32 (v : Int) : Int :=
  (v + 2147483648) % 4294967296 - 2147483648

/-- One `%d` conversion of `sscanf`: white space, an optional sign, at least
one digit; the number is stored into an `int` (`toInt32` of `clampLong`). -/
def scanInt (s : List Char) : Option (Int × List Char) :=
  match skipSpace s with
  | [] => none
  | c :: cs =>
      if c = '-' ∨ c = '+' then
        match cs with
        | [] => none
        | d :: _ =>
            if d.isDigit then
              let r := scanDigits cs 0
              some (toInt32 (clampLong (if c = '-' then -(r.1 : Int) else (r.1 : Int))), r.2)
            else none
      else if c.isDigit then
        let r := scanDigits (c :: cs) 0
        some (toInt32 (clampLong (r.1 : Int)), r.2)
      else none

/-- The conversions `%d %d ...` (`n` of them) of `sscanf`: the values
converted before the first failure, with the unread input. -/
def scanInts : Nat → List Char → List Int × List Char
  | 0, s => ([], s)
  | n + 1, s =>
      match scanInt s with
      | some (v, rest) => (v :: (scanInts n rest).1, (scanInts n rest).2)
      | none => ([], s)

/-- The call `sscanf(packet, "L %d ... %d", ...)` for a command letter `L`
and `n` conversions: the list of converted values, whose length is the
return value of `sscanf` when it is positive. -/
def sscanf (letter : Char) (n : Nat) (packet : List Char) : List Int :=
  match packet with
  | [] => []
  | c :: cs => if c = letter then (scanInts n cs).1 else []

/-- Answers of `malloc` while one line is handled: `alloc k n` tells whether
the request number `k` (counted from 0), for `n` bytes, returns memory. -/
abbrev Alloc := Nat → Nat → Bool

/-- The outcome of `malloc(n)` as request number `k`: a request above
`PTRDIFF_MAX` is always refused, any other is answered by `alloc`. -/
def mallocOk (alloc : Alloc) (k n : Nat) : Bool :=
  decide (n ≤ 9223372036854775807) && alloc k n

/-- Conversion of an `int` to `size_t` (64 bits). -/
def sizeT (v : Int) : Nat :=
  (v % 18446744073709551616).toNat

/-- The board as `initializeBoard` leaves it when it returns: the two fields
and `height` rows of `width` bytes, all set to 0. -/
def blankBoard (width height : Int) : Board :=
  { width := width
    height := height
    cells := List.replicate height.toNat (List.replicate width.toNat 0) }

/-- The C `initializeBoard`, its requests numbered from `first`: one request
of `height * sizeof(char *)` bytes, then one of `width` bytes per row.  A
refused request ends the program (`exit(EXIT_FAILURE)`). -/
def initializeBoard (alloc : Alloc) (first : Nat) (width height : Int) : Except Fault Board :=
  if mallocOk alloc first (sizeT height * 8 % 18446744073709551616) = true then
    if (List.range height.toNat).all
        (fun i => mallocOk alloc (first + 1 + i) (sizeT width)) = true then
      .ok (blankBoard width height)
    else .error .allocation
  else .error .allocation

/-- The C `beginPacket`: the return value, both players and the lines written;
the second board's requests follow the `1 + height` requests of the first. -/
def beginPacket (alloc : Alloc) (packet : List Char) (player1 player2 : Player) :
    Except Fault (Int × Player × Player × List Reply) :=
  match sscanf 'B' 2 packet with
  | [width, height] =>
      if width ≥ 10 ∧ height ≥ 10 then
        match initializeBoard alloc 0 width height with
        | .error f => .error f
        | .ok board1 =>
            match initializeBoard alloc (1 + height.toNat) width height with
            | .error f => .error f
            | .ok board2 =>
                .ok (1,
                  { player1 with board := board1, shipsRemaining := 5 },
                  { player2 with board := board2, shipsRemaining := 5 },
                  [Reply.ack])
      else .ok (0, player1, player2, [Reply.error 200])
  | _ => .ok (0, player1, player2, [Reply.error 100])

/-- The C `handleShipPlacement`: the player afterwards and the lines written.
`heap1` and `heap2` are the prior contents of the shape rows in the calls of
`createShip` made by `isValidPlacement` and by `placeShip`. -/
def handleShipPlacement (heap1 heap2 : Heap) (player : Player) (packet : List Char) :
    Except Fault (Player × List Reply) :=
  match sscanf 'S' 4 packet with
  | [x, y, type, rotation] =>
      if type < 0 ∨ type ≥ 7 then .ok (player, [Reply.error 300])
      else
        let piece : Piece := { type := type, rotation := rotation, column := x, row := y }
        match isValidPlacement heap1 player.board piece with
        | .error f => .error f
        | .ok v =>
            if v ≠ 0 then
              match storeShip player.ships player.shipCount piece with
              | .error f => .error f
              | .ok ships =>
                  match placeShip heap2 player.board piece with
                  | .error f => .error f
                  | .ok board =>
                      .ok ({ player with
                             board := board, ships := ships,
                             shipCount := player.shipCount + 1 }, [Reply.ack])
            else .ok (player, [Reply.error 400])
  | _ => .ok (player, [Reply.error 100])

/-- The C `handleShootPacket`: the shooting player, the opponent and the lines
written. -/
def handleShootPacket (packet : List Char) (player opponent : Player) :
    Except Fault (Player × Player × List Reply) :=
  match sscanf 'F' 2 packet with
  | [x, y] =>
      if x < 0 ∨ x ≥ opponent.board.width ∨ y < 0 ∨ y ≥ opponent.board.height then
        .ok (player, opponent, [Reply.error 500])
      else
        match cellAt opponent.board x y with
        | none => .error .cellIndex
        | some c =>
            if c = 1 then
              match cellSet opponent.board x y 2 with
              | .error f => .error f
              | .ok board =>
                  let opponent1 : Player :=
                    { opponent with
                      board := board, shipsRemaining := opponent.shipsRemaining - 1 }
                  if opponent1.shipsRemaining = 0 then .ok (player, opponent1, [Reply.win])
                  else .ok (player, opponent1, [Reply.hit])
            else .ok (player, opponent, [Reply.miss])
  | _ => .ok (player, opponent, [Reply.error 100])

/-- The scan `while (*start != ' ' && *start != 0) start++` of
`handleInitializePacket` (source line 338). -/
def skipToken : List Char → List Char
  | [] => []
  | c :: cs => if c = ' ' then c :: cs else skipToken cs

/-- The `while` loop of `handleInitializePacket` (source lines 318-341) with
`start` the unread text: iteration `j` draws the shape rows of its two
`createShip` calls from `heaps (2 * j)` and `heaps (2 * j + 1)`.  The first
argument bounds the number of iterations; `start` gets shorter in each one. -/
def handleInitializeLoop (heaps : Nat → Heap) :
    Nat → Nat → List Char → Player → Except Fault (Player × List Reply)
  | 0, _, _, player => .ok (player, [Reply.ack])
  | fuel + 1, j, start, player =>
      match (scanInts 4 start).1 with
      | [type, rotation, x, y] =>
          if type < 0 ∨ type ≥ 7 then .ok (player, [Reply.error 300])
          else
            let piece : Piece := { type := type, rotation := rotation, column := x, row := y }
            match isValidPlacement (heaps (2 * j)) player.board piece with
            | .error f => .error f
            | .ok v =>
                if v ≠ 0 then
                  match storeShip player.ships player.shipCount piece with
                  | .error f => .error f
                  | .ok ships =>
                      match placeShip (heaps (2 * j + 1)) player.board piece with
                      | .error f => .error f
                      | .ok board =>
                          let player1 : Player :=
                            { player with
                              board := board, ships := ships,
                              shipCount := player.shipCount + 1 }
                          match skipToken start with
                          | [] => .ok (player1, [Reply.ack])
                          | _ :: next => handleInitializeLoop heaps fuel (j + 1) next player1
                else .ok (player, [Reply.error 400])
      | _ => .ok (player, [Reply.ack])

/-- The C `handleInitializePacket`; `start` is `packet + 2`. -/
def handleInitializePacket (heaps : Nat → Heap) (packet : List Char) (player : Player) :
    Except Fault (Player × List Reply) :=
  handleInitializeLoop heaps (packet.length + 1) 0 (packet.drop 2) player

/-- The C `processCommands` on the reads still to come from one connection:
the bytes of the next read and the reads after it, or `none` for the return
value -1 (end of stream, or a read of no bytes). -/
def processCommands : List (List Char) → Option (List Char × List (List Char))
  | [] => none
  | [] :: _ => none
  | (c :: cs) :: rest => some (c :: cs, rest)

/-- A player as `main` declares it (source lines 416-417). -/
def initialPlayer (client_fd : Int) : Player :=
  { board := { width := 0, height := 0, cells := [] }
    ships := List.replicate 5 { type := 0, rotation := 0, column := 0, row := 0 }
    shipCount := 0
    shipsRemaining := 5
    client_fd := client_fd }

/-- The variables of `gameLoop` together with both connections: the reads
each connection will still deliver and the lines written to it so far. -/
structure Session where
  turn : Int
  player1 : Player
  player2 : Player
  input1 : List (List Char)
  input2 : List (List Char)
  output1 : List Reply
  output2 : List Reply
  deriving DecidableEq, Repr

/-- The element `players[i]` of the two-element array in `gameLoop`. -/
def Session.player (s : Session) (i : Int) : Except Fault Player :=
  if i = 0 then .ok s.player1 else if i = 1 then .ok s.player2 else .error .playersIndex

/-- Update through the pointer `players[i]`. -/
def Session.setPlayer (s : Session) (i : Int) (p : Player) : Session :=
  if i = 0 then { s with player1 := p } else { s with player2 := p }

/-- Write lines to `client_fds[i]`. -/
def Session.write (s : Session) (i : Int) (lines : List Reply) : Session :=
  if i = 0 then { s with output1 := s.output1 ++ lines }
  else { s with output2 := s.output2 ++ lines }

/-- One iteration of the `while (1)` loop of `gameLoop` (source lines
384-403): the session afterwards, and `true` when the loop goes on to
another iteration (`false` after a `break`). -/
def gameLoopBody (alloc : Alloc) (heap1 heap2 : Heap) (s : Session) :
    Except Fault (Session × Bool) :=
  match s.player s.turn, s.player (1 - s.turn) with
  | .ok current_player, .ok opponent_player =>
      match processCommands (if s.turn = 0 then s.input1 else s.input2) with
      | none => .ok (s, false)
      | some (buffer, rest) =>
          let s0 : Session :=
            if s.turn = 0 then { s with input1 := rest } else { s with input2 := rest }
          if buffer.head? = some 'B' then
            match beginPacket alloc buffer s0.player1 s0.player2 with
            | .error f => .error f
            | .ok (r, p1, p2, lines) =>
                let s1 := ({ s0 with player1 := p1, player2 := p2 }).write s.turn lines
                if r = 0 then .ok (s1, false)
                else .ok ({ s1 with turn := 1 - s.turn }, true)
          else if buffer.head? = some 'S' then
            match handleShipPlacement heap1 heap2 current_player buffer with
            | .error f => .error f
            | .ok (p, lines) =>
                .ok ({ ((s0.setPlayer s.turn p).write s.turn lines) with
                       turn := 1 - s.turn }, true)
          else if buffer.head? = some 'F' then
            match handleShootPacket buffer current_player opponent_player with
            | .error f => .error f
            | .ok (p, o, lines) =>
                .ok ({ (((s0.setPlayer s.turn p).setPlayer (1 - s.turn) o).write
                          s.turn lines) with turn := 1 - s.turn }, true)
          else .ok ({ s0 with turn := 1 - s.turn }, true)
  | .error f, _ => .error f
  | _, .error f => .error f

/-- At most `k` iterations of the loop of `gameLoop`; iteration `i` gets the
answers `allocs i` from `malloc` for its boards and draws the shape rows of
its `createShip` calls from `heaps (2 * i)` and `heaps (2 * i + 1)`.  The
flag is `false` once the loop has been left. -/
def gameLoopN (allocs : Nat → Alloc) (heaps : Nat → Heap) :
    Nat → Session → Except Fault (Session × Bool)
  | 0, s => .ok (s, true)
  | k + 1, s =>
      match gameLoopN allocs heaps k s with
      | .ok (s1, true) => gameLoopBody (allocs k) (heaps (2 * k)) (heaps (2 * k + 1)) s1
      | r => r

/-- The session `main` starts `gameLoop` in (source lines 379, 416-421). -/
def initialSession (client_fd1 client_fd2 : Int) (input1 input2 : List (List Char)) :
    Session :=
  { turn := 0
    player1 := initialPlayer client_fd1
    player2 := initialPlayer client_fd2
    input1 := input1
    input2 := input2
    output1 := []
    output2 := [] }

/-! ## Specification-side predicates and concrete states -/

/-- The board is allocated as its fields say: `height` rows of `width` cells. -/
def Board.WF (board : Board) : Prop :=
  board.cells.length = board.height.toNat ∧ ∀ r ∈ board.cells, r.length = board.width.toNat

instance (board : Board) : Decidable board.WF := by
  unfold Board.WF; infer_instance

/-- The placement condition in the words of the specification: each of the
four offsets `(dx, dy)` that the table holds for `(type, rotation)` gives a
cell `(column + dx, row + dy)` inside `[0,width) × [0,height)` that is Empty. -/
def tableCellsFree (board : Board) (type rotation column row : Int) : Prop :=
  ∀ d ∈ (tetrisPieces.getD type.toNat []).getD rotation.toNat [],
    0 ≤ column + d.1 ∧ column + d.1 < board.width ∧
    0 ≤ row + d.2 ∧ row + d.2 < board.height ∧
    cellAt board (column + d.1) (row + d.2) = some 0

instance (board : Board) (type rotation column row : Int) :
    Decidable (tableCellsFree board type rotation column row) := by
  unfold tableCellsFree; infer_instance

/-- Shape rows as `malloc` returns them from memory the system has just
mapped: all bytes zero. -/
def freshHeap : Heap := fun _ => (0, 0)

/-- Shape rows holding values left behind by earlier use of the memory. -/
def staleHeap : Heap := fun _ => (100, 100)

/-- An allocator that grants every request up to `PTRDIFF_MAX`. -/
def plenty : Alloc := fun _ _ => true

/-- An allocator that refuses every request above 4 GiB. -/
def scarce : Alloc := fun _ n => decide (n ≤ 4294967296)

/-- Every request that `initializeBoard` makes for a `width × height` board,
numbered from `first`, is granted: the one for the `height` row pointers
(8 bytes each) and the one of `width` bytes for each row. -/
def boardGranted (alloc : Alloc) (first : Nat) (width height : Int) : Prop :=
  mallocOk alloc first (8 * height.toNat) = true ∧
  ∀ i < height.toNat, mallocOk alloc (first + 1 + i) width.toNat = true

instance (alloc : Alloc) (first : Nat) (width height : Int) :
    Decidable (boardGranted alloc first width height) := by
  unfold boardGranted; infer_instance

/-- A player after `B 10 10`: an empty 10 × 10 board, no ship placed. -/
def player10 : Player :=
  { initialPlayer 3 with board := blankBoard 10 10 }

/-- A board with one Ship cell at column 1 of row 0, used to run the shot
handler on a concrete target. -/
def targetPlayer : Player :=
  { player10 with
    board := { width := 10, height := 10,
               cells := [0, 1, 0, 0, 0, 0, 0, 0, 0, 0] :: List.replicate 9 (List.replicate 10 0) } }

/-- A session right after `B 10 10`, with player 1 to move and the given
reads pending on the first connection. -/
def session10 (input1 : List (List Char)) : Session :=
  { turn := 0
    player1 := player10
    player2 := { player10 with client_fd := 4 }
    input1 := input1
    input2 := []
    output1 := []
    output2 := [] }

/-- A session as `main` starts it: player 1 will send `B 10 10`, player 2
will send `F 0 0`. -/
def demoStart : Session :=
  initialSession 3 4 ["B 10 10".toList] ["F 0 0".toList]

/-- The session `demoStart` after its first line. -/
def demoAfterBegin : Session :=
  { session10 [] with turn := 1, input2 := ["F 0 0".toList], output1 := [Reply.ack] }

/-- The session `demoStart` after its second line. -/
def demoAfterShot : Session :=
  { session10 [] with turn := 0, output1 := [Reply.ack], output2 := [Reply.miss] }

/-- The lines of player 1 in a session where that player sends `B 10 10`,
five placements that do not overlap, and a sixth one on free cells. -/
def sixPlacements : List (List Char) :=
  ["B 10 10".toList, "S 0 0 2 1".toList, "S 2 0 2 1".toList, "S 4 0 2 1".toList,
   "S 6 0 2 1".toList, "S 8 0 2 1".toList, "S 0 3 2 1".toList]

/-- Player 1 of the session `sixPlacements` after the five placements: five
pieces recorded, their twenty cells Ship. -/
def player5 : Player :=
  { board :=
      { width := 10, height := 10,
        cells :=
          [0, 1, 0, 1, 0, 1, 0, 1, 0, 1] :: [1, 1, 1, 1, 1, 1, 1, 1, 1, 1] ::
          [1, 0, 1, 0, 1, 0, 1, 0, 1, 0] :: List.replicate 7 (List.replicate 10 0) }
    ships :=
      [{ type := 2, rotation := 1, column := 0, row := 0 },
       { type := 2, rotation := 1, column := 2, row := 0 },
       { type := 2, rotation := 1, column := 4, row := 0 },
       { type := 2, rotation := 1, column := 6, row := 0 },
       { type := 2, rotation := 1, column := 8, row := 0 }]
    shipCount := 5
    shipsRemaining := 5
    client_fd := 3 }

/-- Two cells share an edge: they are horizontal or vertical neighbours. -/
def adjacent (p q : Int × Int) : Prop :=
  (p.1 = q.1 ∧ (p.2 + 1 = q.2 ∨ q.2 + 1 = p.2)) ∨
  (p.2 = q.2 ∧ (p.1 + 1 = q.1 ∨ q.1 + 1 = p.1))

instance (p q : Int × Int) : Decidable (adjacent p q) := by
  unfold adjacent; infer_instance

/-- The cells of a table entry form one edge-connected set: every cell is
reachable from every other through steps between adjacent cells of the entry. -/
def edgeConnected (entry : List (Int × Int)) : Prop :=
  ∀ a ∈ entry, ∀ b ∈ entry,
    Relation.ReflTransGen (fun p q => q ∈ entry ∧ adjacent p q) a b

/-- The cells in `seen` together with the cells of `entry` adjacent to one of
them. -/
def grow (entry seen : List (Int × Int)) : List (Int × Int) :=
  seen ++ entry.filter (fun q => decide (∃ p ∈ seen, adjacent p q))

/-- The cells of `entry` found from `a` in at most three steps. -/
def reachable (entry : List (Int × Int)) (a : Int × Int) : List (Int × Int) :=
  grow entry (grow entry (grow entry [a]))

/-- The absolute cells of a recorded piece: its anchor plus the four table
offsets of its kind and rotation. -/
def pieceCells (piece : Piece) : List (Int × Int) :=
  ((tetrisPieces.getD piece.type.toNat []).getD piece.rotation.toNat []).map
    (fun d => (piece.column + d.1, piece.row + d.2))

/-- All cells of a piece are Hit on the board. -/
def pieceSunk (board : Board) (piece : Piece) : Prop :=
  ∀ c ∈ pieceCells piece, cellAt board c.1 c.2 = some 2

instance (board : Board) (piece : Piece) : Decidable (pieceSunk board piece) := by
  unfold pieceSunk; infer_instance

/-- A shot completes the destruction of a placed ship: some piece recorded in
`ships[0 .. shipCount)` has all its cells Hit afterwards and had not before. -/
def completesShip (before after : Player) : Prop :=
  ∃ piece ∈ before.ships.take before.shipCount.toNat,
    pieceSunk after.board piece ∧ ¬ pieceSunk before.board piece

instance (before after : Player) : Decidable (completesShip before after) := by
  unfold completesShip; infer_instance

/-- Some cell of the board is still Ship. -/
def shipCellLeft (board : Board) : Prop :=
  ∃ r ∈ board.cells, (1 : Int) ∈ r

instance (board : Board) : Decidable (shipCellLeft board) := by
  unfold shipCellLeft; infer_instance

/-- Player 2 after `B 10 10` and the placement `S 0 0 2 1`: one piece on the
cells (1,0), (1,1), (0,1), (0,2). -/
def onePiecePlayer : Player :=
  { board :=
      { width := 10, height := 10,
        cells :=
          [0, 1, 0, 0, 0, 0, 0, 0, 0, 0] :: [1, 1, 0, 0, 0, 0, 0, 0, 0, 0] ::
          [1, 0, 0, 0, 0, 0, 0, 0, 0, 0] :: List.replicate 7 (List.replicate 10 0) }
    ships :=
      { type := 2, rotation := 1, column := 0, row := 0 } ::
        List.replicate 4 { type := 0, rotation := 0, column := 0, row := 0 }
    shipCount := 1
    shipsRemaining := 5
    client_fd := 4 }

/-- The player `onePiecePlayer` after a shot at (1,0). -/
def onePieceHit : Player :=
  { onePiecePlayer with
    board :=
      { width := 10, height := 10,
        cells :=
          [0, 2, 0, 0, 0, 0, 0, 0, 0, 0] :: [1, 1, 0, 0, 0, 0, 0, 0, 0, 0] ::
          [1, 0, 0, 0, 0, 0, 0, 0, 0, 0] :: List.replicate 7 (List.replicate 10 0) }
    shipsRemaining := 4 }

/-- A session in which player 2 places two pieces and player 1 shoots six of
their eight cells. -/
def battleSession : Session :=
  initialSession 3 4
    ["B 10 10".toList, "F 1 0".toList, "F 1 1".toList, "F 0 1".toList, "F 0 2".toList,
     "F 4 0".toList, "F 4 1".toList]
    ["S 0 0 2 1".toList, "S 3 0 2 1".toList, "X".toList, "X".toList, "X".toList, "X".toList]

/-- The session `battleSession` after its first `k` lines. -/
def battleAfter (k : Nat) : Session :=
  match gameLoopN (fun _ => plenty) (fun _ => freshHeap) k battleSession with
  | .ok r => r.1
  | .error _ => battleSession

/-- The board `after` has the dimensions of `before`, and every cell that was
not Empty on `before` is not Empty on `after`. -/
def Board.kept (before after : Board) : Prop :=
  after.width = before.width ∧ after.height = before.height ∧
  ∀ x y c : Int, cellAt before x y = some c → c ≠ 0 →
    ∃ c1, cellAt after x y = some c1 ∧ c1 ≠ 0

/-- A session in which a second `B` line arrives after a placement. -/
def rebeginSession : Session :=
  initialSession 3 4 ["B 10 10".toList, "B 12 11".toList] ["S 0 0 2 1".toList]

/-- The session `session10 ["B 12 11"]` after that line: both boards are
replaced by empty 12 × 11 boards. -/
def session12 : Session :=
  { session10 [] with
    turn := 1
    player1 := { player10 with board := blankBoard 12 11 }
    player2 := { player10 with client_fd := 4, board := blankBoard 12 11 }
    output1 := [Reply.ack] }

/-! ## Reading and writing cells -/

theorem cellAt_eq_some {board : Board} {x y c : Int} (h : cellAt board x y = some c) :
    0 ≤ x ∧ 0 ≤ y ∧ ∃ r, board.cells[y.toNat]? = some r ∧ r[x.toNat]? = some c := by
  unfold cellAt at h
  split at h
  · rename_i hxy
    refine ⟨hxy.1, hxy.2, ?_⟩
    split at h
    · rename_i r hr
      exact ⟨r, hr, h⟩
    · cases h
  · cases h

theorem cellSet_ok {board board1 : Board} {x y v : Int}
    (h : cellSet board x y v = .ok board1) :
    board1.width = board.width ∧ board1.height = board.height ∧
    cellAt board1 x y = some v ∧
    ∀ x1 y1 : Int, ¬ (x1 = x ∧ y1 = y) → cellAt board1 x1 y1 = cellAt board x1 y1 := by
  unfold cellSet at h
  split at h
  · rename_i c hc
    obtain ⟨hx, hy, r, hr, hrc⟩ := cellAt_eq_some hc
    have hylt : y.toNat < board.cells.length := by
      rcases List.getElem?_eq_some_iff.mp hr with ⟨hlt, _⟩
      exact hlt
    have hxlt : x.toNat < r.length := by
      rcases List.getElem?_eq_some_iff.mp hrc with ⟨hlt, _⟩
      exact hlt
    have hgetD : board.cells.getD y.toNat [] = r := by
      simp [List.getD_eq_getElem?_getD, hr]
    injection h with h
    subst h
    refine ⟨rfl, rfl, ?_, ?_⟩
    · simp only [cellAt, hx, hy, and_self, if_true, hgetD]
      simp [List.getElem?_set, hylt, hxlt]
    · intro x1 y1 hne
      unfold cellAt
      by_cases hxy : 0 ≤ x1 ∧ 0 ≤ y1
      · simp only [hxy, and_self, if_true, hgetD]
        by_cases hyy : y.toNat = y1.toNat
        · have hy1 : y1 = y := by omega
          have hx1 : x.toNat ≠ x1.toNat := by
            intro hc2
            apply hne
            constructor <;> omega
          subst hy1
          simp [List.getElem?_set, hylt, hr, hx1]
        · simp [List.getElem?_set, hyy]
      · simp [hxy]
  · cases h

theorem cellSet_of_cellAt {board : Board} {x y c : Int} (v : Int)
    (h : cellAt board x y = some c) : ∃ board1, cellSet board x y v = .ok board1 := by
  unfold cellSet
  rw [h]
  exact ⟨_, rfl⟩

theorem cellAt_of_WF {board : Board} (hwf : board.WF) {x y : Int}
    (hx0 : 0 ≤ x) (hx1 : x < board.width) (hy0 : 0 ≤ y) (hy1 : y < board.height) :
    ∃ c, cellAt board x y = some c := by
  obtain ⟨hlen, hrows⟩ := hwf
  have hylt : y.toNat < board.cells.length := by omega
  have hmem : board.cells[y.toNat] ∈ board.cells := List.getElem_mem hylt
  have hxlt : x.toNat < (board.cells[y.toNat]).length := by
    rw [hrows _ hmem]
    omega
  refine ⟨(board.cells[y.toNat])[x.toNat], ?_⟩
  unfold cellAt
  simp [hx0, hy0, List.getElem?_eq_getElem hylt, List.getElem?_eq_getElem hxlt]

theorem blankBoard_WF (width height : Int) : (blankBoard width height).WF := by
  constructor
  · simp [blankBoard]
  · intro r hr
    simp only [blankBoard] at hr
    rw [List.eq_of_mem_replicate hr]
    simp [blankBoard]

theorem cellAt_blankBoard {width height x y : Int}
    (hx0 : 0 ≤ x) (hx1 : x < width) (hy0 : 0 ≤ y) (hy1 : y < height) :
    cellAt (blankBoard width height) x y = some 0 := by
  have hylt : y.toNat < height.toNat := by omega
  have hxlt : x.toNat < width.toNat := by omega
  unfold cellAt
  simp [blankBoard, hx0, hy0, List.getElem?_replicate, hylt, hxlt]

theorem initializeBoard_cases (alloc : Alloc) (first : Nat) (width height : Int) :
    initializeBoard alloc first width height = .ok (blankBoard width height) ∨
    initializeBoard alloc first width height = .error Fault.allocation := by
  unfold initializeBoard
  split
  · split
    · exact Or.inl rfl
    · exact Or.inr rfl
  · exact Or.inr rfl

theorem initializeBoard_granted (alloc : Alloc) (first : Nat) {width height : Int}
    (hw : 0 ≤ width) (hw1 : width < 2147483648) (hh : 0 ≤ height)
    (hh1 : height < 2147483648) :
    (boardGranted alloc first width height →
      initializeBoard alloc first width height = .ok (blankBoard width height)) ∧
    (¬ boardGranted alloc first width height →
      initializeBoard alloc first width height = .error Fault.allocation) := by
  have htable : sizeT height * 8 % 18446744073709551616 = 8 * height.toNat := by
    unfold sizeT
    omega
  have hrow : sizeT width = width.toNat := by
    unfold sizeT
    omega
  have hall : (List.range height.toNat).all
        (fun i => mallocOk alloc (first + 1 + i) (sizeT width)) = true ↔
      ∀ i < height.toNat, mallocOk alloc (first + 1 + i) width.toNat = true := by
    simp [List.all_eq_true, hrow]
  unfold initializeBoard boardGranted
  rw [htable]
  constructor
  · intro hg
    rw [if_pos hg.1, if_pos (hall.mpr hg.2)]
  · intro hg
    by_cases h1 : mallocOk alloc first (8 * height.toNat) = true
    · have h2 : ¬ ((List.range height.toNat).all
          (fun i => mallocOk alloc (first + 1 + i) (sizeT width)) = true) :=
        fun hc => hg ⟨h1, hall.mp hc⟩
      rw [if_pos h1, if_neg h2]
    · rw [if_neg h1]

/-! ## Parsed fields are `int` values -/

theorem toInt32_range (v : Int) : -2147483648 ≤ toInt32 v ∧ toInt32 v < 2147483648 := by
  unfold toInt32
  omega

theorem toInt32_clampLong_of_range {v : Int} (h0 : -2147483648 ≤ v) (h1 : v < 2147483648) :
    toInt32 (clampLong v) = v := by
  unfold toInt32 clampLong
  split
  · omega
  · split <;> omega

theorem scanInt_range {s rest : List Char} {v : Int} (h : scanInt s = some (v, rest)) :
    -2147483648 ≤ v ∧ v < 2147483648 := by
  unfold scanInt at h
  split at h
  · cases h
  · split at h
    · split at h
      · cases h
      · split at h
        · simp only [Option.some.injEq, Prod.mk.injEq] at h
          rw [← h.1]
          exact toInt32_range _
        · cases h
    · split at h
      · simp only [Option.some.injEq, Prod.mk.injEq] at h
        rw [← h.1]
        exact toInt32_range _
      · cases h

theorem scanInts_range (n : Nat) :
    ∀ (s : List Char), ∀ v ∈ (scanInts n s).1, -2147483648 ≤ v ∧ v < 2147483648 := by
  induction n with
  | zero =>
    intro s v hv
    simp [scanInts] at hv
  | succ n ih =>
    intro s v hv
    unfold scanInts at hv
    split at hv
    · rename_i v0 rest hscan
      rcases List.mem_cons.mp hv with hv | hv
      · rw [hv]
        exact scanInt_range hscan
      · exact ih rest v hv
    · simp at hv

theorem sscanf_range {letter : Char} {n : Nat} {packet : List Char} :
    ∀ v ∈ sscanf letter n packet, -2147483648 ≤ v ∧ v < 2147483648 := by
  intro v hv
  unfold sscanf at hv
  split at hv
  · simp at hv
  · split at hv
    · exact scanInts_range n _ v hv
    · simp at hv

/-- The fields `sscanf` stores for numbers outside the range of `int`. -/
theorem sscanf_stores_int :
    sscanf 'F' 2 "F 4294967297 0".toList = [1, 0] ∧
    sscanf 'B' 2 "B 4294967301 20".toList = [5, 20] ∧
    sscanf 'B' 2 "B -4294967286 10".toList = [10, 10] ∧
    sscanf 'B' 2 "B 99999999999999999999 10".toList = [-1, 10] := by
  decide

/-! ## Shooting -/

/-- C4: for a well-formed `F col row` whose target lies inside the opponent's
board, a Ship target becomes Hit and the opponent's `shipsRemaining` drops by
exactly one, while an Empty or Hit target leaves the opponent as it was; in
both cases every other cell, the other fields of the opponent and the whole
shooting player are unchanged. -/
theorem handleShootPacket_in_bounds (packet : List Char) (player opponent : Player)
    (col row : Int) (hpacket : sscanf 'F' 2 packet = [col, row])
    (hcol : 0 ≤ col ∧ col < opponent.board.width)
    (hrow : 0 ≤ row ∧ row < opponent.board.height) :
    (cellAt opponent.board col row = some 1 →
      ∃ opponent1 lines,
        handleShootPacket packet player opponent = .ok (player, opponent1, lines) ∧
        cellAt opponent1.board col row = some 2 ∧
        opponent1.shipsRemaining = opponent.shipsRemaining - 1 ∧
        (∀ x y : Int, ¬ (x = col ∧ y = row) →
          cellAt opponent1.board x y = cellAt opponent.board x y) ∧
        opponent1.board.width = opponent.board.width ∧
        opponent1.board.height = opponent.board.height ∧
        opponent1.ships = opponent.ships ∧
        opponent1.shipCount = opponent.shipCount ∧
        opponent1.client_fd = opponent.client_fd) ∧
    (cellAt opponent.board col row = some 0 ∨ cellAt opponent.board col row = some 2 →
      ∃ lines, handleShootPacket packet player opponent = .ok (player, opponent, lines)) := by
  have hin : ¬ (col < 0 ∨ col ≥ opponent.board.width ∨ row < 0 ∨
      row ≥ opponent.board.height) := by omega
  constructor
  · intro hcell
    obtain ⟨board1, hset⟩ := cellSet_of_cellAt 2 hcell
    obtain ⟨hw, hh, hhit, hother⟩ := cellSet_ok hset
    by_cases hzero : opponent.shipsRemaining - 1 = 0
    · refine ⟨({ opponent with
                 board := board1, shipsRemaining := opponent.shipsRemaining - 1 } : Player),
        [Reply.win], ?_,
        hhit, rfl, hother, hw, hh, rfl, rfl, rfl⟩
      simp only [handleShootPacket, hpacket, hin, if_false, hcell, hset, if_true, hzero]
    · refine ⟨({ opponent with
                 board := board1, shipsRemaining := opponent.shipsRemaining - 1 } : Player),
        [Reply.hit], ?_,
        hhit, rfl, hother, hw, hh, rfl, rfl, rfl⟩
      simp only [handleShootPacket, hpacket, hin, if_false, hcell, hset, if_true, hzero]
  · intro hcell
    refine ⟨[Reply.miss], ?_⟩
    rcases hcell with hcell | hcell <;>
      simp [handleShootPacket, hpacket, hin, hcell]

theorem handleShootPacket_in_bounds_witness :
    cellAt targetPlayer.board 1 0 = some 1 ∧
    ∃ opponent1 lines,
      handleShootPacket "F 1 0".toList player10 targetPlayer
        = .ok (player10, opponent1, lines) ∧
      cellAt opponent1.board 1 0 = some 2 ∧
      opponent1.shipsRemaining = targetPlayer.shipsRemaining - 1 := by
  refine ⟨by decide, ?_⟩
  obtain ⟨o, l, h1, h2, h3, _⟩ :=
    (handleShootPacket_in_bounds "F 1 0".toList player10 targetPlayer 1 0
      (by decide) (by decide) (by decide)).1 (by decide)
  exact ⟨o, l, h1, h2, h3⟩

/-- C5: a well-formed `F col row`, `col` and `row` being the values stored in
`int x, y`, gets exactly one reply: `E 500` exactly when
the target is outside the opponent's board (and then nothing changes);
otherwise `M` exactly when the target cell is not Ship; otherwise `W` exactly
when the opponent's `shipsRemaining` is 0 after the decrement, and `H`
exactly when it is not.  The parsed fields lie in the range of `int`. -/
theorem handleShootPacket_reply (packet : List Char) (player opponent : Player)
    (col row : Int) (hpacket : sscanf 'F' 2 packet = [col, row])
    (hwf : opponent.board.WF) :
    (-2147483648 ≤ col ∧ col < 2147483648 ∧ -2147483648 ≤ row ∧ row < 2147483648) ∧
    ∃ opponent1 reply,
      handleShootPacket packet player opponent = .ok (player, opponent1, [reply]) ∧
      (reply = Reply.error 500 ↔
        (col < 0 ∨ col ≥ opponent.board.width ∨ row < 0 ∨ row ≥ opponent.board.height)) ∧
      (reply = Reply.error 500 → opponent1 = opponent) ∧
      (reply ≠ Reply.error 500 →
        (reply = Reply.miss ↔ cellAt opponent.board col row ≠ some 1)) ∧
      (reply ≠ Reply.error 500 → reply ≠ Reply.miss →
        opponent1.shipsRemaining = opponent.shipsRemaining - 1 ∧
        (reply = Reply.win ↔ opponent1.shipsRemaining = 0) ∧
        (reply = Reply.hit ↔ opponent1.shipsRemaining ≠ 0)) := by
  have hcr := sscanf_range col (by rw [hpacket]; simp)
  have hrr := sscanf_range row (by rw [hpacket]; simp)
  refine ⟨⟨hcr.1, hcr.2, hrr.1, hrr.2⟩, ?_⟩
  by_cases hout : col < 0 ∨ col ≥ opponent.board.width ∨ row < 0 ∨
      row ≥ opponent.board.height
  · refine ⟨opponent, Reply.error 500, ?_, ?_, ?_, ?_, ?_⟩
    · simp only [handleShootPacket, hpacket, hout, if_true]
    · simp [hout]
    · intro _; rfl
    · intro h; exact absurd rfl h
    · intro h; exact absurd rfl h
  · obtain ⟨c, hc⟩ := cellAt_of_WF hwf (x := col) (y := row)
      (by omega) (by omega) (by omega) (by omega)
    by_cases hship : c = 1
    · subst hship
      obtain ⟨board1, hset⟩ := cellSet_of_cellAt 2 hc
      by_cases hzero : opponent.shipsRemaining - 1 = 0
      · refine ⟨({ opponent with
                   board := board1, shipsRemaining := opponent.shipsRemaining - 1 } : Player),
          Reply.win, ?_, ?_, ?_, ?_, ?_⟩
        · simp only [handleShootPacket, hpacket, hout, if_false, hc, hset, if_true, hzero]
        · simp [hout]
        · intro h; cases h
        · intro _; simp [hc]
        · intro _ _; simp [hzero]
      · refine ⟨({ opponent with
                   board := board1, shipsRemaining := opponent.shipsRemaining - 1 } : Player),
          Reply.hit, ?_, ?_, ?_, ?_, ?_⟩
        · simp only [handleShootPacket, hpacket, hout, if_false, hc, hset, if_true, hzero]
        · simp [hout]
        · intro h; cases h
        · intro _; simp [hc]
        · intro _ _; simp [hzero]
    · refine ⟨opponent, Reply.miss, ?_, ?_, ?_, ?_, ?_⟩
      · simp [handleShootPacket, hpacket, hout, hc, hship]
      · simp [hout]
      · intro h; cases h
      · intro _; simp [hc, hship]
      · intro _ h; exact absurd rfl h

theorem handleShootPacket_reply_witness :
    sscanf 'F' 2 "F 4294967297 0".toList = [1, 0] ∧
    ∃ opponent1,
      handleShootPacket "F 4294967297 0".toList player10 targetPlayer
        = .ok (player10, opponent1, [Reply.hit]) ∧
      opponent1.shipsRemaining = targetPlayer.shipsRemaining - 1 := by
  obtain ⟨_, o, r, h1, h2, _, h4, h5⟩ :=
    handleShootPacket_reply "F 4294967297 0".toList player10 targetPlayer 1 0
      (by decide) (by decide)
  have hin : r ≠ Reply.error 500 := fun hc => absurd (h2.mp hc) (by decide)
  have hship : r ≠ Reply.miss := fun hc => absurd ((h4 hin).mp hc) (by decide)
  obtain ⟨hsr, _, hhit⟩ := h5 hin hship
  have hr : r = Reply.hit := hhit.mpr (by rw [hsr]; decide)
  subst hr
  exact ⟨by decide, o, h1, hsr⟩

/-! ## Begin -/

/-- C6 (as amended): for a `B w h` with `w ≥ 10` and `h ≥ 10` (the values
stored in `int width, height`), if every request of the two calls of
`initializeBoard` is granted, `beginPacket` returns 1 and replies `A`, and
afterwards both boards have width `w`, height `h`, are allocated as `h` rows
of `w` cells with every cell Empty, and both `shipsRemaining` are 5; if a
request is refused the program exits: no value is returned, nothing is
written. -/
theorem beginPacket_valid (alloc : Alloc) (packet : List Char) (player1 player2 : Player)
    (w h : Int) (hpacket : sscanf 'B' 2 packet = [w, h]) (hw : w ≥ 10) (hh : h ≥ 10) :
    (boardGranted alloc 0 w h ∧ boardGranted alloc (1 + h.toNat) w h →
      ∃ q1 q2,
        beginPacket alloc packet player1 player2 = .ok (1, q1, q2, [Reply.ack]) ∧
        q1.board.width = w ∧ q1.board.height = h ∧
        q2.board.width = w ∧ q2.board.height = h ∧
        q1.board.WF ∧ q2.board.WF ∧
        (∀ x y : Int, 0 ≤ x → x < w → 0 ≤ y → y < h →
          cellAt q1.board x y = some 0 ∧ cellAt q2.board x y = some 0) ∧
        q1.board.cells.flatten = List.replicate (w.toNat * h.toNat) 0 ∧
        q2.board.cells.flatten = List.replicate (w.toNat * h.toNat) 0 ∧
        q1.shipsRemaining = 5 ∧ q2.shipsRemaining = 5) ∧
    (¬ (boardGranted alloc 0 w h ∧ boardGranted alloc (1 + h.toNat) w h) →
      beginPacket alloc packet player1 player2 = .error Fault.allocation) := by
  have hwr := sscanf_range w (by rw [hpacket]; simp)
  have hhr := sscanf_range h (by rw [hpacket]; simp)
  have hcond : w ≥ 10 ∧ h ≥ 10 := ⟨hw, hh⟩
  obtain ⟨hok1, hno1⟩ := initializeBoard_granted alloc 0 (by omega : (0 : Int) ≤ w) hwr.2
    (by omega : (0 : Int) ≤ h) hhr.2
  obtain ⟨hok2, hno2⟩ := initializeBoard_granted alloc (1 + h.toNat)
    (by omega : (0 : Int) ≤ w) hwr.2 (by omega : (0 : Int) ≤ h) hhr.2
  have hjoin : (blankBoard w h).cells.flatten = List.replicate (w.toNat * h.toNat) 0 := by
    simp [blankBoard, Nat.mul_comm]
  constructor
  · intro hg
    refine ⟨({ player1 with board := blankBoard w h, shipsRemaining := 5 } : Player),
      ({ player2 with board := blankBoard w h, shipsRemaining := 5 } : Player), ?_,
      rfl, rfl, rfl, rfl, blankBoard_WF w h, blankBoard_WF w h, ?_,
      hjoin, hjoin, rfl, rfl⟩
    · simp only [beginPacket, hpacket, hcond, and_self, if_true, hok1 hg.1, hok2 hg.2]
    · intro x y hx0 hx1 hy0 hy1
      exact ⟨cellAt_blankBoard hx0 hx1 hy0 hy1, cellAt_blankBoard hx0 hx1 hy0 hy1⟩
  · intro hg
    by_cases h1 : boardGranted alloc 0 w h
    · have h2 : ¬ boardGranted alloc (1 + h.toNat) w h := fun hc => hg ⟨h1, hc⟩
      simp only [beginPacket, hpacket, hcond, and_self, if_true, hok1 h1, hno2 h2]
    · simp only [beginPacket, hpacket, hcond, and_self, if_true, hno1 h1]

theorem beginPacket_valid_witness :
    (boardGranted plenty 0 10 12 ∧ boardGranted plenty (1 + (12 : Int).toNat) 10 12) ∧
    ∃ q1 q2,
      beginPacket plenty "B 10 12".toList (initialPlayer 3) (initialPlayer 4)
        = .ok (1, q1, q2, [Reply.ack]) ∧
      q1.board.width = 10 ∧ q1.board.height = 12 := by
  obtain ⟨q1, q2, h1, h2, h3, _⟩ :=
    (beginPacket_valid plenty "B 10 12".toList (initialPlayer 3) (initialPlayer 4) 10 12
      (by decide) (by decide) (by decide)).1 (by decide)
  exact ⟨by decide, q1, q2, h1, h2, h3⟩

/-- C6 (the claim fails as stated): `B 2147483647 2147483647` has both fields
at least 10, but its first request, for 2147483647 row pointers, is
17179869176 bytes; an allocator that refuses requests above 4 GiB returns
`NULL`, and `initializeBoard` exits: `beginPacket` returns nothing and no
reply is written. -/
theorem beginPacket_valid_counterexample :
    sscanf 'B' 2 "B 2147483647 2147483647".toList = [2147483647, 2147483647] ∧
    beginPacket scarce "B 2147483647 2147483647".toList (initialPlayer 3) (initialPlayer 4)
      = .error Fault.allocation ∧
    ¬ ∃ q1 q2, beginPacket scarce "B 2147483647 2147483647".toList (initialPlayer 3)
        (initialPlayer 4) = .ok (1, q1, q2, [Reply.ack]) := by
  have h : beginPacket scarce "B 2147483647 2147483647".toList (initialPlayer 3)
      (initialPlayer 4) = .error Fault.allocation := by decide
  refine ⟨by decide, h, ?_⟩
  rintro ⟨q1, q2, hq⟩
  rw [h] at hq
  cases hq

/-- C7: a `B w h` with `w < 10` or `h < 10` (the values stored in
`int width, height`) makes `beginPacket` return 0 with the single reply
`E 200`, whatever `malloc` would answer, and both players (board, ships and
counters) are what they were: no board is created.  The parsed fields lie
in the range of `int`. -/
theorem beginPacket_too_small (alloc : Alloc) (packet : List Char)
    (player1 player2 : Player) (w h : Int)
    (hpacket : sscanf 'B' 2 packet = [w, h]) (hsmall : w < 10 ∨ h < 10) :
    beginPacket alloc packet player1 player2
      = .ok (0, player1, player2, [Reply.error 200]) ∧
    (-2147483648 ≤ w ∧ w < 2147483648 ∧ -2147483648 ≤ h ∧ h < 2147483648) := by
  have hnot : ¬ (w ≥ 10 ∧ h ≥ 10) := by omega
  have hwr := sscanf_range w (by rw [hpacket]; simp)
  have hhr := sscanf_range h (by rw [hpacket]; simp)
  refine ⟨?_, hwr.1, hwr.2, hhr.1, hhr.2⟩
  simp only [beginPacket, hpacket, hnot, if_false]

theorem beginPacket_too_small_witness :
    sscanf 'B' 2 "B 4294967301 20".toList = [5, 20] ∧
    beginPacket plenty "B 4294967301 20".toList (initialPlayer 3) (initialPlayer 4)
      = .ok (0, initialPlayer 3, initialPlayer 4, [Reply.error 200]) :=
  ⟨by decide,
    (beginPacket_too_small plenty "B 4294967301 20".toList (initialPlayer 3) (initialPlayer 4)
      5 20 (by decide) (by decide)).1⟩

/-! ## The shape rows and the placement check -/

/-- C10 (the code diverges): for the square piece `createShip(0, 0)` copies
no table entry at all: the loop stops at the first entry `(0, 0)`, so the
count of rows it defines is 0 and the four rows keep whatever `malloc`
left in them, while the table entry is `(0,0), (1,0), (0,1), (1,1)`.  The
same happens for each of the 20 table entries that start with `(0, 0)`; the
other 8 are copied in full. -/
theorem createShip_square_copies_nothing (heap : Heap) :
    tableRow 0 0 = .ok [(0, 0), (1, 0), (0, 1), (1, 1)] ∧
    createShipCount [(0, 0), (1, 0), (0, 1), (1, 1)] 0 = 0 ∧
    createShip heap 0 0 = .ok [heap 0, heap 1, heap 2, heap 3] ∧
    createShip staleHeap 0 0 ≠ tableRow 0 0 ∧
    (tetrisPieces.flatten.filter (fun entry => createShipCount entry 0 = 0)).length = 20 ∧
    (tetrisPieces.flatten.filter (fun entry => createShipCount entry 0 = 4)).length = 8 :=
  ⟨by decide, by decide, rfl, by decide, by decide, by decide⟩

/-- C1 (the code diverges): on an empty 10 × 10 board `isValidPlacement`
accepts the square piece at anchor (9, 9) when the shape rows hold zeros,
although three of its table cells lie outside the board; and it rejects the
square piece at anchor (0, 0) when the rows hold stale values, although its
four table cells are inside and Empty. -/
theorem isValidPlacement_square_ignores_table :
    (isValidPlacement freshHeap player10.board
        { type := 0, rotation := 0, column := 9, row := 9 } = .ok 1 ∧
      ¬ tableCellsFree player10.board 0 0 9 9) ∧
    (isValidPlacement staleHeap player10.board
        { type := 0, rotation := 0, column := 0, row := 0 } = .ok 0 ∧
      tableCellsFree player10.board 0 0 0 0) := by
  decide

/-- C2 (the code diverges): on an empty 10 × 10 board with no ship placed,
`S 0 0 0 0` has its four table cells inside and Empty, yet with zeroed shape
rows the handler replies `A` and sets only cell (0, 0) to Ship, leaving
(1, 0), (0, 1) and (1, 1) Empty; with stale shape rows it replies `E 400`. -/
theorem handleShipPlacement_square_misplaced :
    tableCellsFree player10.board 0 0 0 0 ∧ player10.shipCount < 5 ∧
    (handleShipPlacement freshHeap freshHeap player10 "S 0 0 0 0".toList).map
        (fun r => (r.2, cellAt r.1.board 0 0, cellAt r.1.board 1 0,
          cellAt r.1.board 0 1, cellAt r.1.board 1 1))
      = .ok ([Reply.ack], some 1, some 0, some 0, some 0) ∧
    handleShipPlacement staleHeap staleHeap player10 "S 0 0 0 0".toList
      = .ok (player10, [Reply.error 400]) := by
  decide

/-- C3 (the code diverges): on an empty 10 × 10 board, `S 9 9 0 0` has table
cells outside the board, yet with zeroed shape rows the handler replies `A`
instead of `E 400`, marks cell (9, 9) as Ship and raises `shipCount` to 1. -/
theorem handleShipPlacement_square_accepted_outside :
    ¬ tableCellsFree player10.board 0 0 9 9 ∧
    (handleShipPlacement freshHeap freshHeap player10 "S 9 9 0 0".toList).map
        (fun r => (r.2, cellAt r.1.board 9 9, r.1.shipCount))
      = .ok ([Reply.ack], some 1, 1) ∧
    cellAt player10.board 9 9 = some 0 ∧ player10.shipCount = 0 := by
  decide

/-! ## The game loop -/

theorem processCommands_some {input : List (List Char)} {buffer : List Char}
    {rest : List (List Char)} (h : processCommands input = some (buffer, rest)) :
    input = buffer :: rest := by
  unfold processCommands at h
  split at h
  · cases h
  · cases h
  · injection h with h
    injection h with h1 h2
    subst h1 h2
    rfl

theorem Session.write_fields (s : Session) (i : Int) (lines : List Reply) :
    (s.write i lines).turn = s.turn ∧ (s.write i lines).player1 = s.player1 ∧
    (s.write i lines).player2 = s.player2 ∧ (s.write i lines).input1 = s.input1 ∧
    (s.write i lines).input2 = s.input2 ∧
    (i = 0 → (s.write i lines).output2 = s.output2) ∧
    (i ≠ 0 → (s.write i lines).output1 = s.output1) := by
  unfold Session.write
  split <;> simp_all

theorem Session.setPlayer_fields (s : Session) (i : Int) (p : Player) :
    (s.setPlayer i p).turn = s.turn ∧ (s.setPlayer i p).input1 = s.input1 ∧
    (s.setPlayer i p).input2 = s.input2 ∧ (s.setPlayer i p).output1 = s.output1 ∧
    (s.setPlayer i p).output2 = s.output2 := by
  unfold Session.setPlayer
  split <;> simp_all

theorem gameLoopBody_continue {alloc : Alloc} {heap1 heap2 : Heap} {s s1 : Session}
    (h : gameLoopBody alloc heap1 heap2 s = .ok (s1, true)) :
    (s.turn = 0 ∨ s.turn = 1) ∧ s1.turn = 1 - s.turn ∧
    (s.turn = 0 → ∃ buffer, s.input1 = buffer :: s1.input1 ∧ s1.input2 = s.input2 ∧
      s1.output2 = s.output2) ∧
    (s.turn = 1 → ∃ buffer, s.input2 = buffer :: s1.input2 ∧ s1.input1 = s.input1 ∧
      s1.output1 = s.output1) := by
  have hturn : s.turn = 0 ∨ s.turn = 1 := by
    by_contra hne
    push_neg at hne
    simp [gameLoopBody, Session.player, hne.1, hne.2] at h
  refine ⟨hturn, ?_⟩
  have hSB : ¬ ('S' : Char) = 'B' := by decide
  have hFB : ¬ ('F' : Char) = 'B' := by decide
  have hFS : ¬ ('F' : Char) = 'S' := by decide
  have h10 : ¬ ((1 : Int) = 0) := by decide
  rcases hturn with ht | ht
  · cases hp : processCommands s.input1 with
    | none => simp [gameLoopBody, Session.player, ht, hp] at h
    | some br =>
      obtain ⟨buffer, rest⟩ := br
      have hin := processCommands_some hp
      by_cases hB : buffer.head? = some 'B'
      · simp only [gameLoopBody, Session.player, ht, h10, if_false, if_true, hp, hB, if_true] at h
        norm_num at h
        cases hbp : beginPacket alloc buffer s.player1 s.player2 with
        | error f => simp [hbp] at h
        | ok r =>
          obtain ⟨r, p1, p2, lines⟩ := r
          simp only [hbp] at h
          split_ifs at h with hr
          · simp at h
          · simp only [Except.ok.injEq, Prod.mk.injEq, and_true] at h
            subst h
            simp [ht, hin, Session.write_fields]
      · by_cases hS : buffer.head? = some 'S'
        · simp only [gameLoopBody, Session.player, ht, h10, if_false, if_true, hp, hS, Option.some.injEq, hSB, if_true, if_false] at h
          norm_num at h
          cases hsp : handleShipPlacement heap1 heap2 s.player1 buffer with
          | error f => simp [hsp] at h
          | ok r =>
            simp only [hsp, Except.ok.injEq, Prod.mk.injEq, and_true] at h
            subst h
            simp [ht, hin, Session.write_fields, Session.setPlayer_fields]
        · by_cases hF : buffer.head? = some 'F'
          · simp only [gameLoopBody, Session.player, ht, h10, if_false, if_true, hp, hF, Option.some.injEq, hFB, hFS, if_true, if_false] at h
            norm_num at h
            cases hsp : handleShootPacket buffer s.player1 s.player2 with
            | error f => simp [hsp] at h
            | ok r =>
              simp only [hsp, Except.ok.injEq, Prod.mk.injEq, and_true] at h
              subst h
              simp [ht, hin, Session.write_fields, Session.setPlayer_fields]
          · simp only [gameLoopBody, Session.player, ht, h10, if_false, if_true, hp, hB, hS, hF, if_true, if_false] at h
            norm_num at h
            subst h
            simp [ht, hin]
  · cases hp : processCommands s.input2 with
    | none => simp [gameLoopBody, Session.player, ht, hp] at h
    | some br =>
      obtain ⟨buffer, rest⟩ := br
      have hin := processCommands_some hp
      by_cases hB : buffer.head? = some 'B'
      · simp only [gameLoopBody, Session.player, ht, h10, if_false, if_true, hp, hB, if_true] at h
        norm_num at h
        cases hbp : beginPacket alloc buffer s.player1 s.player2 with
        | error f => simp [hbp] at h
        | ok r =>
          obtain ⟨r, p1, p2, lines⟩ := r
          simp only [hbp] at h
          split_ifs at h with hr
          · simp at h
          · simp only [Except.ok.injEq, Prod.mk.injEq, and_true] at h
            subst h
            simp [ht, hin, Session.write_fields]
      · by_cases hS : buffer.head? = some 'S'
        · simp only [gameLoopBody, Session.player, ht, h10, if_false, if_true, hp, hS, Option.some.injEq, hSB, if_true, if_false] at h
          norm_num at h
          cases hsp : handleShipPlacement heap1 heap2 s.player2 buffer with
          | error f => simp [hsp] at h
          | ok r =>
            simp only [hsp, Except.ok.injEq, Prod.mk.injEq, and_true] at h
            subst h
            simp [ht, hin, Session.write_fields, Session.setPlayer_fields]
        · by_cases hF : buffer.head? = some 'F'
          · simp only [gameLoopBody, Session.player, ht, h10, if_false, if_true, hp, hF, Option.some.injEq, hFB, hFS, if_true, if_false] at h
            norm_num at h
            cases hsp : handleShootPacket buffer s.player2 s.player1 with
            | error f => simp [hsp] at h
            | ok r =>
              simp only [hsp, Except.ok.injEq, Prod.mk.injEq, and_true] at h
              subst h
              simp [ht, hin, Session.write_fields, Session.setPlayer_fields]
          · simp only [gameLoopBody, Session.player, ht, h10, if_false, if_true, hp, hB, hS, hF, if_true, if_false] at h
            norm_num at h
            subst h
            simp [ht, hin]

theorem handleShootPacket_player {packet : List Char} {player opponent p o : Player}
    {lines : List Reply} (h : handleShootPacket packet player opponent = .ok (p, o, lines)) :
    p = player := by
  unfold handleShootPacket at h
  dsimp only at h
  split at h
  · split at h
    · simp at h; exact h.1.symm
    · split at h
      · cases h
      · split at h
        · split at h
          · cases h
          · split at h <;> (simp at h; exact h.1.symm)
        · simp at h; exact h.1.symm
  · simp at h; exact h.1.symm

theorem gameLoopBody_dispatch {alloc : Alloc} {heap1 heap2 : Heap} {s s1 : Session}
    (h : gameLoopBody alloc heap1 heap2 s = .ok (s1, true)) :
    ∃ cur opp buffer rest,
      s.player s.turn = .ok cur ∧ s.player (1 - s.turn) = .ok opp ∧
      processCommands (if s.turn = 0 then s.input1 else s.input2) = some (buffer, rest) ∧
      (buffer.head? = some 'S' →
        ∃ p lines, handleShipPlacement heap1 heap2 cur buffer = .ok (p, lines) ∧
          s1.player s.turn = .ok p ∧ s1.player (1 - s.turn) = .ok opp) ∧
      (buffer.head? = some 'F' →
        ∃ o lines, handleShootPacket buffer cur opp = .ok (cur, o, lines) ∧
          s1.player s.turn = .ok cur ∧ s1.player (1 - s.turn) = .ok o) := by
  have hturn : s.turn = 0 ∨ s.turn = 1 := by
    by_contra hne
    push_neg at hne
    simp [gameLoopBody, Session.player, hne.1, hne.2] at h
  have hSB : ¬ ('S' : Char) = 'B' := by decide
  have hFB : ¬ ('F' : Char) = 'B' := by decide
  have hFS : ¬ ('F' : Char) = 'S' := by decide
  have hSF : ¬ ('S' : Char) = 'F' := by decide
  have h10 : ¬ ((1 : Int) = 0) := by decide
  rcases hturn with ht | ht
  · cases hp : processCommands s.input1 with
    | none => simp [gameLoopBody, Session.player, ht, hp] at h
    | some br =>
      obtain ⟨buffer, rest⟩ := br
      refine ⟨s.player1, s.player2, buffer, rest, by simp [Session.player, ht],
        by simp [Session.player, ht], by simp [ht, hp], ?_, ?_⟩
      · intro hS
        simp only [gameLoopBody, Session.player, ht, h10, if_false, if_true, hp, hS,
          Option.some.injEq, hSB] at h
        norm_num at h
        cases hsp : handleShipPlacement heap1 heap2 s.player1 buffer with
        | error f => simp [hsp] at h
        | ok r =>
          simp only [hsp, Except.ok.injEq, Prod.mk.injEq, and_true] at h
          subst h
          exact ⟨r.1, r.2, rfl, by simp [Session.player, Session.setPlayer, Session.write, ht],
            by simp [Session.player, Session.setPlayer, Session.write, ht]⟩
      · intro hF
        simp only [gameLoopBody, Session.player, ht, h10, if_false, if_true, hp, hF,
          Option.some.injEq, hFB, hFS] at h
        norm_num at h
        cases hsp : handleShootPacket buffer s.player1 s.player2 with
        | error f => simp [hsp] at h
        | ok r =>
          obtain ⟨p, o, lines⟩ := r
          have hpl := handleShootPacket_player hsp
          subst hpl
          simp only [hsp, Except.ok.injEq, Prod.mk.injEq, and_true] at h
          subst h
          exact ⟨o, lines, rfl, by simp [Session.player, Session.setPlayer, Session.write, ht],
            by simp [Session.player, Session.setPlayer, Session.write, ht]⟩
  · cases hp : processCommands s.input2 with
    | none => simp [gameLoopBody, Session.player, ht, hp] at h
    | some br =>
      obtain ⟨buffer, rest⟩ := br
      refine ⟨s.player2, s.player1, buffer, rest, by simp [Session.player, ht],
        by simp [Session.player, ht], by simp [ht, hp], ?_, ?_⟩
      · intro hS
        simp only [gameLoopBody, Session.player, ht, h10, if_false, if_true, hp, hS,
          Option.some.injEq, hSB] at h
        norm_num at h
        cases hsp : handleShipPlacement heap1 heap2 s.player2 buffer with
        | error f => simp [hsp] at h
        | ok r =>
          simp only [hsp, Except.ok.injEq, Prod.mk.injEq, and_true] at h
          subst h
          exact ⟨r.1, r.2, rfl, by simp [Session.player, Session.setPlayer, Session.write, ht],
            by simp [Session.player, Session.setPlayer, Session.write, ht]⟩
      · intro hF
        simp only [gameLoopBody, Session.player, ht, h10, if_false, if_true, hp, hF,
          Option.some.injEq, hFB, hFS] at h
        norm_num at h
        cases hsp : handleShootPacket buffer s.player2 s.player1 with
        | error f => simp [hsp] at h
        | ok r =>
          obtain ⟨p, o, lines⟩ := r
          have hpl := handleShootPacket_player hsp
          subst hpl
          simp only [hsp, Except.ok.injEq, Prod.mk.injEq, and_true] at h
          subst h
          exact ⟨o, lines, rfl, by simp [Session.player, Session.setPlayer, Session.write, ht],
            by simp [Session.player, Session.setPlayer, Session.write, ht]⟩

theorem gameLoopN_turn (allocs : Nat → Alloc) (heaps : Nat → Heap) (s0 : Session) (hturn : s0.turn = 0) :
    ∀ (k : Nat) (sk : Session), gameLoopN allocs heaps k s0 = .ok (sk, true) →
      sk.turn = ((k % 2 : Nat) : Int) ∧
      sk.input1 = s0.input1.drop ((k + 1) / 2) ∧ sk.input2 = s0.input2.drop (k / 2) := by
  intro k
  induction k with
  | zero =>
    intro sk hk
    simp only [gameLoopN, Except.ok.injEq, Prod.mk.injEq, and_true] at hk
    subst hk
    simp [hturn]
  | succ k ih =>
    intro sk hk
    simp only [gameLoopN] at hk
    cases hprev : gameLoopN allocs heaps k s0 with
    | error f => simp [hprev] at hk
    | ok r =>
      obtain ⟨sp, b⟩ := r
      cases b with
      | false => simp [hprev] at hk
      | true =>
        simp only [hprev] at hk
        obtain ⟨ht, hi1, hi2⟩ := ih sp hprev
        obtain ⟨_, hflip, hread0, hread1⟩ := gameLoopBody_continue hk
        rcases Nat.mod_two_eq_zero_or_one k with hk2 | hk2
        · have hsp0 : sp.turn = 0 := by simp [ht, hk2]
          obtain ⟨buffer, hb, hother, _⟩ := hread0 hsp0
          have h1 : (k + 1) % 2 = 1 := by omega
          have h2 : (k + 1 + 1) / 2 = (k + 1) / 2 + 1 := by omega
          have h3 : (k + 1) / 2 = k / 2 := by omega
          refine ⟨by rw [hflip, hsp0, h1]; rfl, ?_, by rw [hother, hi2, h3]⟩
          rw [h2, ← List.drop_drop, ← hi1, hb]
          rfl
        · have hsp1 : sp.turn = 1 := by simp [ht, hk2]
          obtain ⟨buffer, hb, hother, _⟩ := hread1 hsp1
          have h1 : (k + 1) % 2 = 0 := by omega
          have h2 : (k + 1 + 1) / 2 = (k + 1) / 2 := by omega
          have h3 : (k + 1) / 2 = k / 2 + 1 := by omega
          refine ⟨by rw [hflip, hsp1, h1]; rfl, by rw [hother, hi1, h2], ?_⟩
          rw [h3, ← List.drop_drop, ← hi2, hb]
          rfl


/-- C8: in a session started with `turn = 0`, when line `k` (counted from 0)
is read and the loop goes on, the turn before it is `k mod 2` and after it
`1 - turn = (k + 1) mod 2`, whatever the line; line `k` is taken from the
connection of player `k mod 2`, the other connection's input and output are
untouched, and a placement or a shot is dispatched for `players[k mod 2]`
with `players[1 - k mod 2]` as opponent.  For every session state, an
iteration after which the loop goes on starts with `turn` 0 or 1 and flips
it. -/
theorem gameLoop_turn_alternates (allocs : Nat → Alloc) (heaps : Nat → Heap) (s0 : Session) (k : Nat)
    (sk s1 : Session) (hturn : s0.turn = 0)
    (hk : gameLoopN allocs heaps k s0 = .ok (sk, true))
    (hline : gameLoopBody (allocs k) (heaps (2 * k)) (heaps (2 * k + 1)) sk = .ok (s1, true)) :
    sk.turn = ((k % 2 : Nat) : Int) ∧ s1.turn = 1 - sk.turn ∧
    s1.turn = (((k + 1) % 2 : Nat) : Int) ∧
    (k % 2 = 0 → ∃ buffer, s0.input1.drop (k / 2) = buffer :: s1.input1 ∧
      s1.input2 = sk.input2 ∧ s1.output2 = sk.output2) ∧
    (k % 2 = 1 → ∃ buffer, s0.input2.drop (k / 2) = buffer :: s1.input2 ∧
      s1.input1 = sk.input1 ∧ s1.output1 = sk.output1) ∧
    (∃ cur opp buffer rest,
      sk.player ((k % 2 : Nat) : Int) = .ok cur ∧
      sk.player (1 - ((k % 2 : Nat) : Int)) = .ok opp ∧
      processCommands (if k % 2 = 0 then sk.input1 else sk.input2) = some (buffer, rest) ∧
      (buffer.head? = some 'S' →
        ∃ p lines, handleShipPlacement (heaps (2 * k)) (heaps (2 * k + 1)) cur buffer
            = .ok (p, lines) ∧
          s1.player ((k % 2 : Nat) : Int) = .ok p ∧
          s1.player (1 - ((k % 2 : Nat) : Int)) = .ok opp) ∧
      (buffer.head? = some 'F' →
        ∃ o lines, handleShootPacket buffer cur opp = .ok (cur, o, lines) ∧
          s1.player ((k % 2 : Nat) : Int) = .ok cur ∧
          s1.player (1 - ((k % 2 : Nat) : Int)) = .ok o)) ∧
    (∀ (alloc : Alloc) (heap1 heap2 : Heap) (s s2 : Session),
      gameLoopBody alloc heap1 heap2 s = .ok (s2, true) →
        (s.turn = 0 ∨ s.turn = 1) ∧ s2.turn = 1 - s.turn) := by
  obtain ⟨ht, hi1, hi2⟩ := gameLoopN_turn allocs heaps s0 hturn k sk hk
  obtain ⟨_, hflip, hread0, hread1⟩ := gameLoopBody_continue hline
  obtain ⟨cur, opp, buffer, rest, hcur, hopp, hread, hS, hF⟩ := gameLoopBody_dispatch hline
  have hcond : (sk.turn = 0) ↔ (k % 2 = 0) := by
    rw [ht]
    omega
  refine ⟨ht, hflip, ?_, ?_, ?_, ?_, ?_⟩
  · rw [hflip, ht]
    omega
  · intro hk2
    obtain ⟨b, hb, h2, h3⟩ := hread0 (hcond.mpr hk2)
    have h4 : (k + 1) / 2 = k / 2 := by omega
    exact ⟨b, by rw [← h4, ← hi1, hb], h2, h3⟩
  · intro hk2
    have hsk : sk.turn = 1 := by
      rw [ht, hk2]
      rfl
    obtain ⟨b, hb, h2, h3⟩ := hread1 hsk
    exact ⟨b, by rw [← hi2, hb], h2, h3⟩
  · refine ⟨cur, opp, buffer, rest, ?_, ?_, ?_, ?_, ?_⟩
    · rw [← ht]; exact hcur
    · rw [← ht]; exact hopp
    · simpa only [hcond] using hread
    · rw [← ht]; exact hS
    · rw [← ht]; exact hF
  · intro alloc heap1 heap2 s s2 h
    obtain ⟨h1, h2, _⟩ := gameLoopBody_continue h
    exact ⟨h1, h2⟩

theorem gameLoop_turn_alternates_witness :
    demoStart.turn = 0 ∧
    gameLoopN (fun _ => plenty) (fun _ => freshHeap) 1 demoStart = .ok (demoAfterBegin, true) ∧
    gameLoopBody plenty freshHeap freshHeap demoAfterBegin = .ok (demoAfterShot, true) ∧
    demoAfterBegin.turn = ((1 % 2 : Nat) : Int) ∧
    demoAfterShot.turn = 1 - demoAfterBegin.turn := by
  have h := gameLoop_turn_alternates (fun _ => plenty) (fun _ => freshHeap) demoStart 1 demoAfterBegin
    demoAfterShot (by decide) (by decide) (by decide)
  exact ⟨by decide, by decide, by decide, h.1, h.2.1⟩


/-- C9 (the code diverges): the loop writes no reply for a line starting with
`I` and never calls the Initialize handler (which would place the piece and
reply `A`), and it writes no reply, rather than `E 100`, for a line whose
first character is none of `B`, `S`, `F`, `I`; in both cases it only
consumes the line and flips the turn. -/
theorem gameLoopBody_ignores_other_lines :
    gameLoopBody plenty freshHeap freshHeap (session10 ["I 2 1 0 0".toList])
      = .ok ({ session10 [] with turn := 1 }, true) ∧
    (handleInitializePacket (fun _ => freshHeap) "I 2 1 0 0".toList player10).map
        (fun r => (r.2, r.1.shipCount)) = .ok ([Reply.ack], 1) ∧
    gameLoopBody plenty freshHeap freshHeap (session10 ["X 1 2".toList])
      = .ok ({ session10 [] with turn := 1 }, true) := by
  decide

/-! ## Capacity, batch placement and the range of the rotation -/

/-- C11 (the code diverges): a player 1 who has sent `B 10 10` and five valid
placements has `shipCount = 5`; a sixth placement `S 0 3 2 1` on free cells
passes validation and is not rejected: the handler stores the piece at
`ships[5]`, outside the array `Piece ships[5]` (reported here as
`Fault.shipsIndex`), and the same holds for the quadruple of `I 2 1 0 3`. -/
theorem sixth_placement_not_rejected :
    (gameLoopN (fun _ => plenty) (fun _ => freshHeap) 12
        (initialSession 3 4 sixPlacements (List.replicate 7 "X".toList))).map
      (fun r => (r.1.player1, r.2)) = .ok (player5, true) ∧
    player5.shipCount = 5 ∧ tableCellsFree player5.board 2 1 0 3 ∧
    isValidPlacement freshHeap player5.board
      { type := 2, rotation := 1, column := 0, row := 3 } = .ok 1 ∧
    handleShipPlacement freshHeap freshHeap player5 "S 0 3 2 1".toList
      = .error Fault.shipsIndex ∧
    handleInitializePacket (fun _ => freshHeap) "I 2 1 0 3".toList player5
      = .error Fault.shipsIndex ∧
    (gameLoopN (fun _ => plenty) (fun _ => freshHeap) 13
        (initialSession 3 4 sixPlacements (List.replicate 7 "X".toList))).map
      (fun r => r.2) = .error Fault.shipsIndex := by
  decide

/-- C12 (the code diverges): on an empty 10 × 10 board the packet
`I 6 2 1 1 2 1 5 5` holds two quadruples that are valid placements one after
the other, but after placing the first the handler moves `start` past one
number only and reads `2 1 1 2` as the next quadruple, which overlaps the
first piece: it replies `E 400` with one piece recorded, not `A` with two.
A packet with a single quadruple is handled as claimed. -/
theorem handleInitializePacket_second_quadruple :
    tableCellsFree player10.board 6 2 1 1 ∧
    (handleShipPlacement freshHeap freshHeap player10 "S 1 1 6 2".toList).map
      (fun r => (decide (tableCellsFree r.1.board 2 1 5 5), r.2)) = .ok (true, [Reply.ack]) ∧
    (handleInitializePacket (fun _ => freshHeap) "I 6 2 1 1 2 1 5 5".toList player10).map
      (fun r => (r.2, r.1.shipCount, r.1.ships.take 2))
      = .ok ([Reply.error 400], 1,
          [{ type := 6, rotation := 2, column := 1, row := 1 },
           { type := 0, rotation := 0, column := 0, row := 0 }]) ∧
    (handleInitializePacket (fun _ => staleHeap) "I 6 2 1 1 2 1 5 5".toList player10).map
      (fun r => (r.2, r.1.shipCount)) = .ok ([Reply.error 400], 1) ∧
    (scanInts 4 (skipToken "6 2 1 1 2 1 5 5".toList).tail).1 = [2, 1, 1, 2] ∧
    (handleInitializePacket (fun _ => freshHeap) "I 6 2 1 1".toList player10).map
      (fun r => (r.2, r.1.shipCount, r.1.ships.take 1))
      = .ok ([Reply.ack], 1, [{ type := 6, rotation := 2, column := 1, row := 1 }]) := by
  decide

/-- C18 (the code diverges): the handlers check the kind but not the
rotation before the lookup: `S 0 0 2 7` and the quadruple of `I 2 7 0 0` reach
`createShip` with rotation 7 and `S 0 0 2 -1` with rotation -1, which index
`tetrisPieces[2]` outside `[0,3]` (reported here as `Fault.tableIndex`);
with a kind outside `[0,6]` the lookup is not reached (`E 300`). -/
theorem rotation_not_checked (heap1 heap2 : Heap) :
    handleShipPlacement heap1 heap2 player10 "S 0 0 2 7".toList = .error Fault.tableIndex ∧
    handleShipPlacement heap1 heap2 player10 "S 0 0 2 -1".toList = .error Fault.tableIndex ∧
    handleInitializePacket (fun _ => heap1) "I 2 7 0 0".toList player10
      = .error Fault.tableIndex ∧
    handleShipPlacement heap1 heap2 player10 "S 0 0 7 7".toList
      = .ok (player10, [Reply.error 300]) :=
  ⟨rfl, rfl, rfl, rfl⟩

/-! ## The shape table -/

/-- C17 (the code diverges): the table rows of two different kinds hold the
same four cells: kind 2 (commented `S Piece`) and kind 4 (`Z Piece`) are
identical at rotation 0, and kind 3 (`L Piece`) at rotation 0 is kind 5
(`J Piece`) at rotation 1. -/
theorem tetrisPieces_kinds_coincide :
    tableRow 2 0 = tableRow 4 0 ∧ tableRow 3 0 = tableRow 5 1 ∧
    tableRow 2 0 = .ok [(0, 0), (1, 0), (1, 1), (2, 1)] ∧
    tableRow 3 0 = .ok [(0, 0), (1, 0), (2, 0), (2, 1)] := by
  decide

theorem grow_sound {entry seen : List (Int × Int)} {a : Int × Int}
    (hseen : ∀ p ∈ seen, Relation.ReflTransGen (fun p q => q ∈ entry ∧ adjacent p q) a p) :
    ∀ q ∈ grow entry seen,
      Relation.ReflTransGen (fun p q => q ∈ entry ∧ adjacent p q) a q := by
  intro q hq
  unfold grow at hq
  rcases List.mem_append.mp hq with hq | hq
  · exact hseen q hq
  · obtain ⟨hmem, hadj⟩ := List.mem_filter.mp hq
    obtain ⟨p, hp, hpq⟩ := of_decide_eq_true hadj
    exact Relation.ReflTransGen.tail (hseen p hp) ⟨hmem, hpq⟩

theorem reachable_sound {entry : List (Int × Int)} {a b : Int × Int}
    (hb : b ∈ reachable entry a) :
    Relation.ReflTransGen (fun p q => q ∈ entry ∧ adjacent p q) a b := by
  unfold reachable at hb
  refine grow_sound (grow_sound (grow_sound ?_)) b hb
  intro p hp
  rw [List.mem_singleton.mp hp]

/-- C19: the table has 7 kinds of 4 rotations, 28 entries, and every entry is
a well-formed tetromino: four offsets, pairwise distinct, each `dx` and `dy`
in `[0,3]`, forming one edge-connected set. -/
theorem tetrisPieces_entries_are_tetrominoes :
    tetrisPieces.length = 7 ∧ (∀ kind ∈ tetrisPieces, kind.length = 4) ∧
    tetrisPieces.flatten.length = 28 ∧
    ∀ entry ∈ tetrisPieces.flatten,
      entry.length = 4 ∧ entry.Nodup ∧
      (∀ d ∈ entry, 0 ≤ d.1 ∧ d.1 ≤ 3 ∧ 0 ≤ d.2 ∧ d.2 ≤ 3) ∧
      edgeConnected entry := by
  refine ⟨by decide, by decide, by decide, ?_⟩
  intro entry hentry
  have hshape : ∀ e ∈ tetrisPieces.flatten,
      e.length = 4 ∧ e.Nodup ∧ (∀ d ∈ e, 0 ≤ d.1 ∧ d.1 ≤ 3 ∧ 0 ≤ d.2 ∧ d.2 ≤ 3) := by
    decide
  have hreach : ∀ e ∈ tetrisPieces.flatten, ∀ a ∈ e, ∀ b ∈ e, b ∈ reachable e a := by
    decide
  obtain ⟨h1, h2, h3⟩ := hshape entry hentry
  exact ⟨h1, h2, h3, fun a ha b hb => reachable_sound (hreach entry hentry a ha b hb)⟩

/-! ## Before Begin -/

/-- C13 (the code diverges): the counter is lowered for every Ship cell that
is hit, not for every ship destroyed.  Player 2 has placed one piece on
(1,0), (1,1), (0,1), (0,2); the shot `F 1 0` lowers `shipsRemaining` from 5
to 4 although no recorded piece has all its cells Hit afterwards.  And in
the session `battleSession`, where player 2 has placed two pieces, the fifth
hit is answered `W` with the counter at 0 while three Ship cells of the
second piece remain. -/
theorem shipsRemaining_lowered_per_cell :
    (handleShipPlacement freshHeap freshHeap { player10 with client_fd := 4 }
        "S 0 0 2 1".toList).map (fun r => r.1) = .ok onePiecePlayer ∧
    handleShootPacket "F 1 0".toList player10 onePiecePlayer
      = .ok (player10, onePieceHit, [Reply.hit]) ∧
    onePieceHit.shipsRemaining = onePiecePlayer.shipsRemaining - 1 ∧
    ¬ completesShip onePiecePlayer onePieceHit ∧
    (gameLoopN (fun _ => plenty) (fun _ => freshHeap) 11 battleSession).map
        (fun r => (r.1.output1, r.1.player2.shipsRemaining,
          decide (shipCellLeft r.1.player2.board), r.1.player2.shipCount))
      = .ok ([Reply.ack, Reply.hit, Reply.hit, Reply.hit, Reply.hit, Reply.win], 0, true, 2) := by
  decide

/-! ## Leaving the loop -/

theorem gameLoopBody_eof {alloc : Alloc} {heap1 heap2 : Heap} {s : Session} (hturn : s.turn = 0 ∨ s.turn = 1)
    (hread : processCommands (if s.turn = 0 then s.input1 else s.input2) = none) :
    gameLoopBody alloc heap1 heap2 s = .ok (s, false) := by
  have h10 : ¬ ((1 : Int) = 0) := by decide
  rcases hturn with ht | ht
  · simp only [ht, if_true] at hread
    simp only [gameLoopBody, Session.player, ht, if_true, hread]
    norm_num
  · simp only [ht, h10, if_false] at hread
    simp only [gameLoopBody, Session.player, ht, h10, if_false, if_true, hread]
    norm_num

theorem gameLoopBody_begin {alloc : Alloc} {heap1 heap2 : Heap} {s : Session}
    {buffer : List Char} {rest : List (List Char)} (hturn : s.turn = 0 ∨ s.turn = 1)
    (hread : processCommands (if s.turn = 0 then s.input1 else s.input2) = some (buffer, rest))
    (hB : buffer.head? = some 'B') :
    gameLoopBody alloc heap1 heap2 s =
      match beginPacket alloc buffer s.player1 s.player2 with
      | .error f => .error f
      | .ok (r, p1, p2, lines) =>
          .ok (if r = 0 then
                (({ (if s.turn = 0 then { s with input1 := rest }
                     else { s with input2 := rest }) with
                    player1 := p1, player2 := p2 }).write s.turn lines, false)
              else
                ({ (({ (if s.turn = 0 then { s with input1 := rest }
                        else { s with input2 := rest }) with
                      player1 := p1, player2 := p2 }).write s.turn lines) with
                   turn := 1 - s.turn }, true)) := by
  have h10 : ¬ ((1 : Int) = 0) := by decide
  rcases hturn with ht | ht
  · simp only [ht, if_true] at hread
    simp only [gameLoopBody, Session.player, ht, if_true, hread, hB]
    norm_num
    cases hbp : beginPacket alloc buffer s.player1 s.player2 with
    | error f => rfl
    | ok r =>
      obtain ⟨r, p1, p2, lines⟩ := r
      simp only
      split_ifs <;> rfl
  · simp only [ht, h10, if_false] at hread
    simp only [gameLoopBody, Session.player, ht, h10, if_false, if_true, hread, hB]
    norm_num
    cases hbp : beginPacket alloc buffer s.player1 s.player2 with
    | error f => rfl
    | ok r =>
      obtain ⟨r, p1, p2, lines⟩ := r
      simp only
      split_ifs <;> rfl

theorem gameLoopBody_place {alloc : Alloc} {heap1 heap2 : Heap} {s : Session} {buffer : List Char}
    {rest : List (List Char)} (hturn : s.turn = 0 ∨ s.turn = 1)
    (hread : processCommands (if s.turn = 0 then s.input1 else s.input2) = some (buffer, rest))
    (hS : buffer.head? = some 'S') :
    gameLoopBody alloc heap1 heap2 s =
      match handleShipPlacement heap1 heap2 (if s.turn = 0 then s.player1 else s.player2)
          buffer with
      | .error f => .error f
      | .ok (p, lines) =>
          .ok ({ (((if s.turn = 0 then { s with input1 := rest }
                    else { s with input2 := rest }).setPlayer s.turn p).write s.turn lines) with
                 turn := 1 - s.turn }, true) := by
  have h10 : ¬ ((1 : Int) = 0) := by decide
  have hSB : ¬ ('S' : Char) = 'B' := by decide
  rcases hturn with ht | ht
  · simp only [ht, if_true] at hread
    simp only [gameLoopBody, Session.player, ht, if_true, hread, hS, Option.some.injEq, hSB,
      if_false]
    norm_num
  · simp only [ht, h10, if_false] at hread
    simp only [gameLoopBody, Session.player, ht, h10, if_false, if_true, hread, hS,
      Option.some.injEq, hSB]
    norm_num

theorem gameLoopBody_shoot {alloc : Alloc} {heap1 heap2 : Heap} {s : Session} {buffer : List Char}
    {rest : List (List Char)} (hturn : s.turn = 0 ∨ s.turn = 1)
    (hread : processCommands (if s.turn = 0 then s.input1 else s.input2) = some (buffer, rest))
    (hF : buffer.head? = some 'F') :
    gameLoopBody alloc heap1 heap2 s =
      match handleShootPacket buffer (if s.turn = 0 then s.player1 else s.player2)
          (if s.turn = 0 then s.player2 else s.player1) with
      | .error f => .error f
      | .ok (p, o, lines) =>
          .ok ({ ((((if s.turn = 0 then { s with input1 := rest }
                     else { s with input2 := rest }).setPlayer s.turn p).setPlayer
                   (1 - s.turn) o).write s.turn lines) with
                 turn := 1 - s.turn }, true) := by
  have h10 : ¬ ((1 : Int) = 0) := by decide
  have hFB : ¬ ('F' : Char) = 'B' := by decide
  have hFS : ¬ ('F' : Char) = 'S' := by decide
  rcases hturn with ht | ht
  · simp only [ht, if_true] at hread
    simp only [gameLoopBody, Session.player, ht, if_true, hread, hF, Option.some.injEq, hFB,
      hFS, if_false]
    norm_num
  · simp only [ht, h10, if_false] at hread
    simp only [gameLoopBody, Session.player, ht, h10, if_false, if_true, hread, hF,
      Option.some.injEq, hFB, hFS]
    norm_num

theorem gameLoopBody_other {alloc : Alloc} {heap1 heap2 : Heap} {s : Session} {buffer : List Char}
    {rest : List (List Char)} (hturn : s.turn = 0 ∨ s.turn = 1)
    (hread : processCommands (if s.turn = 0 then s.input1 else s.input2) = some (buffer, rest))
    (hB : buffer.head? ≠ some 'B') (hS : buffer.head? ≠ some 'S')
    (hF : buffer.head? ≠ some 'F') :
    gameLoopBody alloc heap1 heap2 s =
      .ok ({ (if s.turn = 0 then { s with input1 := rest } else { s with input2 := rest }) with
             turn := 1 - s.turn }, true) := by
  have h10 : ¬ ((1 : Int) = 0) := by decide
  rcases hturn with ht | ht
  · simp only [ht, if_true] at hread
    simp only [gameLoopBody, Session.player, ht, if_true, hread, hB, hS, hF, if_false]
    norm_num
  · simp only [ht, h10, if_false] at hread
    simp only [gameLoopBody, Session.player, ht, h10, if_false, if_true, hread, hB, hS, hF]
    norm_num

theorem beginPacket_cases (alloc : Alloc) (packet : List Char) (player1 player2 : Player) :
    beginPacket alloc packet player1 player2 = .error Fault.allocation ∨
    (∃ q1 q2, beginPacket alloc packet player1 player2 = .ok (1, q1, q2, [Reply.ack])) ∨
    beginPacket alloc packet player1 player2
      = .ok (0, player1, player2, [Reply.error 200]) ∨
    beginPacket alloc packet player1 player2
      = .ok (0, player1, player2, [Reply.error 100]) := by
  unfold beginPacket
  split
  · rename_i width height _
    split
    · rcases initializeBoard_cases alloc 0 width height with h1 | h1
      · rcases initializeBoard_cases alloc (1 + height.toNat) width height with h2 | h2
        · rw [h1, h2]
          exact Or.inr (Or.inl ⟨_, _, rfl⟩)
        · rw [h1, h2]
          exact Or.inl rfl
      · rw [h1]
        exact Or.inl rfl
    · exact Or.inr (Or.inr (Or.inl rfl))
  · exact Or.inr (Or.inr (Or.inr rfl))

theorem gameLoopBody_turn_ok {alloc : Alloc} {heap1 heap2 : Heap} {s : Session}
    {r : Session × Bool}
    (h : gameLoopBody alloc heap1 heap2 s = .ok r) : s.turn = 0 ∨ s.turn = 1 := by
  by_contra hne
  push_neg at hne
  simp [gameLoopBody, Session.player, hne.1, hne.2] at h

/-- C14 (as amended): a shot does not finish the session, whatever its reply
(`W` included): the iteration that handles an `F` line ends with the loop
going on and the turn flipped, the opponent being what `handleShootPacket`
returned.  The loop is left only when the read yields end of stream or when
a `B` line makes `beginPacket` return 0. -/
theorem gameLoop_goes_on_after_shot (alloc : Alloc) (heap1 heap2 : Heap) (s s1 : Session)
    (b : Bool)
    (h : gameLoopBody alloc heap1 heap2 s = .ok (s1, b)) :
    (b = false →
      processCommands (if s.turn = 0 then s.input1 else s.input2) = none ∨
      ∃ buffer rest,
        processCommands (if s.turn = 0 then s.input1 else s.input2) = some (buffer, rest) ∧
        buffer.head? = some 'B' ∧
        ∃ r, beginPacket alloc buffer s.player1 s.player2 = .ok r ∧ r.1 = 0) ∧
    (∀ buffer rest,
      processCommands (if s.turn = 0 then s.input1 else s.input2) = some (buffer, rest) →
      buffer.head? = some 'F' →
      b = true ∧ s1.turn = 1 - s.turn ∧
      ∃ o lines,
        handleShootPacket buffer (if s.turn = 0 then s.player1 else s.player2)
          (if s.turn = 0 then s.player2 else s.player1)
          = .ok (if s.turn = 0 then s.player1 else s.player2, o, lines) ∧
        s1.player (1 - s.turn) = .ok o ∧
        (if s.turn = 0 then s1.output1 else s1.output2)
          = (if s.turn = 0 then s.output1 else s.output2) ++ lines) := by
  have hturn := gameLoopBody_turn_ok h
  have hshootcase : ∀ buffer rest,
      processCommands (if s.turn = 0 then s.input1 else s.input2) = some (buffer, rest) →
      buffer.head? = some 'F' →
      b = true ∧ s1.turn = 1 - s.turn ∧
      ∃ o lines,
        handleShootPacket buffer (if s.turn = 0 then s.player1 else s.player2)
          (if s.turn = 0 then s.player2 else s.player1)
          = .ok (if s.turn = 0 then s.player1 else s.player2, o, lines) ∧
        s1.player (1 - s.turn) = .ok o ∧
        (if s.turn = 0 then s1.output1 else s1.output2)
          = (if s.turn = 0 then s.output1 else s.output2) ++ lines := by
    intro buffer rest hread hF
    rw [gameLoopBody_shoot hturn hread hF] at h
    cases hshot : handleShootPacket buffer (if s.turn = 0 then s.player1 else s.player2)
        (if s.turn = 0 then s.player2 else s.player1) with
    | error f => simp [hshot] at h
    | ok r =>
      obtain ⟨p, o, lines⟩ := r
      have hp := handleShootPacket_player hshot
      subst hp
      simp only [hshot, Except.ok.injEq, Prod.mk.injEq] at h
      obtain ⟨hs1, hb⟩ := h
      subst hs1
      refine ⟨hb.symm, rfl, o, lines, rfl, ?_, ?_⟩
      · rcases hturn with ht | ht <;>
          simp [Session.player, Session.setPlayer, Session.write, ht]
      · rcases hturn with ht | ht <;>
          simp [Session.setPlayer, Session.write, ht]
  refine ⟨?_, hshootcase⟩
  intro hb
  subst hb
  cases hread : processCommands (if s.turn = 0 then s.input1 else s.input2) with
  | none => exact Or.inl rfl
  | some br =>
    obtain ⟨buffer, rest⟩ := br
    right
    by_cases hB : buffer.head? = some 'B'
    · refine ⟨buffer, rest, rfl, hB, ?_⟩
      rw [gameLoopBody_begin hturn hread hB] at h
      cases hbp : beginPacket alloc buffer s.player1 s.player2 with
      | error f => simp [hbp] at h
      | ok r =>
        refine ⟨r, rfl, ?_⟩
        obtain ⟨r, p1, p2, lines⟩ := r
        simp only [hbp] at h
        by_contra hne
        simp [hne] at h
    · exfalso
      by_cases hS : buffer.head? = some 'S'
      · rw [gameLoopBody_place hturn hread hS] at h
        split at h <;> simp at h
      · by_cases hF : buffer.head? = some 'F'
        · exact Bool.false_ne_true (hshootcase buffer rest hread hF).1
        · rw [gameLoopBody_other hturn hread hB hS hF] at h
          simp at h

theorem gameLoop_goes_on_after_shot_witness :
    gameLoopBody plenty freshHeap freshHeap (battleAfter 10) = .ok (battleAfter 11, true) ∧
    (battleAfter 11).output1.getLast? = some Reply.win ∧
    (battleAfter 11).turn = 1 - (battleAfter 10).turn := by
  have h := gameLoop_goes_on_after_shot plenty freshHeap freshHeap (battleAfter 10)
    (battleAfter 11) true (by decide)
  exact ⟨by decide, by decide, (h.2 "F 4 0".toList ["F 4 1".toList] (by decide) (by decide)).2.1⟩

/-- C14 (the claim fails as stated): in the session `battleSession` line 10,
`F 4 0`, is answered `W` and leaves player 2 with `shipsRemaining = 0` and
cell (4,1) Ship; the loop goes on, and line 12, `F 4 1`, is answered `H`,
turns cell (4,1) into Hit and takes `shipsRemaining` to -1. -/
theorem session_finished_after_win_counterexample :
    (gameLoopN (fun _ => plenty) (fun _ => freshHeap) 11 battleSession).map
        (fun r => (r.1.output1.getLast?, r.2, r.1.player2.shipsRemaining,
          cellAt r.1.player2.board 4 1))
      = .ok (some Reply.win, true, 0, some 1) ∧
    (gameLoopN (fun _ => plenty) (fun _ => freshHeap) 13 battleSession).map
        (fun r => (r.1.output1.getLast?, r.2, r.1.player2.shipsRemaining,
          cellAt r.1.player2.board 4 1))
      = .ok (some Reply.hit, true, -1, some 2) := by
  decide

/-- C15 (as amended): when the line just handled was answered with an error
line `E code`, the loop went on with the turn flipped if the line was not a
`B` line (the errors of the placement and shot handlers), and the loop was
left, turn and players as they were, if it was a `B` line (`E 100` for a
malformed Begin, `E 200` for dimensions below 10). -/
theorem error_reply_ends_only_begin (alloc : Alloc) (heap1 heap2 : Heap) (s s1 : Session)
    (b : Bool)
    (buffer : List Char) (rest : List (List Char)) (code : Int)
    (h : gameLoopBody alloc heap1 heap2 s = .ok (s1, b))
    (hread : processCommands (if s.turn = 0 then s.input1 else s.input2)
      = some (buffer, rest))
    (hreply : (if s.turn = 0 then s1.output1 else s1.output2)
      = (if s.turn = 0 then s.output1 else s.output2) ++ [Reply.error code]) :
    (buffer.head? ≠ some 'B' → b = true ∧ s1.turn = 1 - s.turn) ∧
    (buffer.head? = some 'B' →
      b = false ∧ s1.turn = s.turn ∧ (code = 100 ∨ code = 200) ∧
      s1.player1 = s.player1 ∧ s1.player2 = s.player2) := by
  have hturn := gameLoopBody_turn_ok h
  constructor
  · intro hB
    by_cases hS : buffer.head? = some 'S'
    · rw [gameLoopBody_place hturn hread hS] at h
      split at h
      · simp at h
      · simp only [Except.ok.injEq, Prod.mk.injEq] at h
        obtain ⟨hs1, hb⟩ := h
        subst hs1
        exact ⟨hb.symm, rfl⟩
    · by_cases hF : buffer.head? = some 'F'
      · rw [gameLoopBody_shoot hturn hread hF] at h
        split at h
        · simp at h
        · simp only [Except.ok.injEq, Prod.mk.injEq] at h
          obtain ⟨hs1, hb⟩ := h
          subst hs1
          exact ⟨hb.symm, rfl⟩
      · rw [gameLoopBody_other hturn hread hB hS hF] at h
        simp only [Except.ok.injEq, Prod.mk.injEq] at h
        obtain ⟨hs1, hb⟩ := h
        subst hs1
        exact ⟨hb.symm, rfl⟩
  · intro hB
    rw [gameLoopBody_begin hturn hread hB] at h
    rcases beginPacket_cases alloc buffer s.player1 s.player2 with hbp | hbp | hbp | hbp
    · simp [hbp] at h
    · exfalso
      obtain ⟨q1, q2, hbp⟩ := hbp
      have hne : ¬ ((1 : Int) = 0) := by decide
      simp only [hbp, hne, if_false, Except.ok.injEq, Prod.mk.injEq] at h
      obtain ⟨hs1, _⟩ := h
      subst hs1
      rcases hturn with ht | ht <;>
        simp [Session.write, ht] at hreply
    · simp only [hbp, if_true, Except.ok.injEq, Prod.mk.injEq] at h
      obtain ⟨hs1, hb⟩ := h
      subst hs1
      rcases hturn with ht | ht
      · simp only [Session.write, ht, if_true, List.append_cancel_left_eq,
          List.cons.injEq, Reply.error.injEq, and_true] at hreply
        exact ⟨hb.symm, by simp [Session.write, ht], Or.inr hreply.symm,
          by simp [Session.write, ht], by simp [Session.write, ht]⟩
      · have h10 : ¬ ((1 : Int) = 0) := by decide
        simp only [Session.write, ht, h10, if_false, List.append_cancel_left_eq,
          List.cons.injEq, Reply.error.injEq, and_true] at hreply
        exact ⟨hb.symm, by simp [Session.write, ht], Or.inr hreply.symm,
          by simp [Session.write, ht], by simp [Session.write, ht]⟩
    · simp only [hbp, if_true, Except.ok.injEq, Prod.mk.injEq] at h
      obtain ⟨hs1, hb⟩ := h
      subst hs1
      rcases hturn with ht | ht
      · simp only [Session.write, ht, if_true, List.append_cancel_left_eq,
          List.cons.injEq, Reply.error.injEq, and_true] at hreply
        exact ⟨hb.symm, by simp [Session.write, ht], Or.inl hreply.symm,
          by simp [Session.write, ht], by simp [Session.write, ht]⟩
      · have h10 : ¬ ((1 : Int) = 0) := by decide
        simp only [Session.write, ht, h10, if_false, List.append_cancel_left_eq,
          List.cons.injEq, Reply.error.injEq, and_true] at hreply
        exact ⟨hb.symm, by simp [Session.write, ht], Or.inl hreply.symm,
          by simp [Session.write, ht], by simp [Session.write, ht]⟩

theorem error_reply_ends_only_begin_witness :
    gameLoopBody plenty freshHeap freshHeap (session10 ["S 9 9 2 1".toList])
      = .ok ({ session10 [] with turn := 1, output1 := [Reply.error 400] }, true) ∧
    ({ session10 [] with turn := 1, output1 := [Reply.error 400] } : Session).turn
      = 1 - (session10 ["S 9 9 2 1".toList]).turn := by
  have h := error_reply_ends_only_begin plenty freshHeap freshHeap (session10 ["S 9 9 2 1".toList])
    { session10 [] with turn := 1, output1 := [Reply.error 400] } true "S 9 9 2 1".toList []
    400 (by decide) (by decide) (by decide)
  exact ⟨by decide, (h.1 (by decide)).2⟩

/-- C15 (the claim fails as stated): right after `B 10 10`, the line `B 5 5`
is answered `E 200` and the line `B x` is answered `E 100`, and in both cases
the loop is left (`break`) with the turn not flipped; the same happens to
`B 5 5` as the first line of a session. -/
theorem begin_error_recoverable_counterexample :
    gameLoopBody plenty freshHeap freshHeap (session10 ["B 5 5".toList, "F 0 0".toList])
      = .ok ({ session10 ["F 0 0".toList] with output1 := [Reply.error 200] }, false) ∧
    gameLoopBody plenty freshHeap freshHeap (session10 ["B x".toList, "F 0 0".toList])
      = .ok ({ session10 ["F 0 0".toList] with output1 := [Reply.error 100] }, false) ∧
    (gameLoopN (fun _ => plenty) (fun _ => freshHeap) 1 (initialSession 3 4 ["B 5 5".toList] ["B 10 10".toList])).map
        (fun r => (r.1.output1, r.1.turn, r.2)) = .ok ([Reply.error 200], 0, false) ∧
    (gameLoopN (fun _ => plenty) (fun _ => freshHeap) 2 (initialSession 3 4 ["B 5 5".toList] ["B 10 10".toList])).map
        (fun r => (r.1.output1, r.1.output2, r.1.input2, r.2))
      = .ok ([Reply.error 200], [], ["B 10 10".toList], false) := by
  decide

/-! ## Board dimensions -/

theorem Board.kept_refl (b : Board) : Board.kept b b :=
  ⟨rfl, rfl, fun _ _ c hc hne => ⟨c, hc, hne⟩⟩

theorem Board.kept_trans {a b c : Board} (hab : Board.kept a b) (hbc : Board.kept b c) :
    Board.kept a c := by
  obtain ⟨h1, h2, h3⟩ := hab
  obtain ⟨h4, h5, h6⟩ := hbc
  refine ⟨h4.trans h1, h5.trans h2, ?_⟩
  intro x y v hv hne
  obtain ⟨v1, hv1, hne1⟩ := h3 x y v hv hne
  exact h6 x y v1 hv1 hne1

theorem cellSet_kept {board board1 : Board} {x y v : Int}
    (h : cellSet board x y v = .ok board1) (hv : v ≠ 0) : Board.kept board board1 := by
  obtain ⟨hw, hh, hset, hother⟩ := cellSet_ok h
  refine ⟨hw, hh, ?_⟩
  intro x1 y1 c hc hne
  by_cases hxy : x1 = x ∧ y1 = y
  · obtain ⟨hx, hy⟩ := hxy
    subst hx hy
    exact ⟨v, hset, hv⟩
  · exact ⟨c, by rw [hother x1 y1 hxy]; exact hc, hne⟩

theorem placeShipLoop_kept (piece : Piece) (shape : List (Int × Int)) :
    ∀ (board board1 : Board), placeShipLoop piece shape board = .ok board1 →
      Board.kept board board1 := by
  induction shape with
  | nil =>
    intro board board1 h
    simp only [placeShipLoop, Except.ok.injEq] at h
    subst h
    exact Board.kept_refl board
  | cons s rest ih =>
    intro board board1 h
    simp only [placeShipLoop] at h
    cases hset : cellSet board (piece.column + s.1) (piece.row + s.2) 1 with
    | error f => simp [hset] at h
    | ok b2 =>
      simp only [hset] at h
      exact Board.kept_trans (cellSet_kept hset (by decide)) (ih b2 board1 h)

theorem placeShip_kept {heap : Heap} {board board1 : Board} {piece : Piece}
    (h : placeShip heap board piece = .ok board1) : Board.kept board board1 := by
  unfold placeShip at h
  split at h
  · exact placeShipLoop_kept piece _ board board1 h
  · cases h

theorem handleShipPlacement_kept {heap1 heap2 : Heap} {player p : Player}
    {packet : List Char} {lines : List Reply}
    (h : handleShipPlacement heap1 heap2 player packet = .ok (p, lines)) :
    Board.kept player.board p.board := by
  unfold handleShipPlacement at h
  split at h
  · split at h
    · simp only [Except.ok.injEq, Prod.mk.injEq] at h
      rw [← h.1]
      exact Board.kept_refl _
    · dsimp only at h
      split at h
      · cases h
      · split at h
        · split at h
          · cases h
          · split at h
            · cases h
            · rename_i board hplace
              simp only [Except.ok.injEq, Prod.mk.injEq] at h
              rw [← h.1]
              exact placeShip_kept hplace
        · simp only [Except.ok.injEq, Prod.mk.injEq] at h
          rw [← h.1]
          exact Board.kept_refl _
  · simp only [Except.ok.injEq, Prod.mk.injEq] at h
    rw [← h.1]
    exact Board.kept_refl _

theorem handleShootPacket_kept {packet : List Char} {player opponent p o : Player}
    {lines : List Reply} (h : handleShootPacket packet player opponent = .ok (p, o, lines)) :
    Board.kept opponent.board o.board := by
  unfold handleShootPacket at h
  dsimp only at h
  split at h
  · split at h
    · simp at h; rw [← h.2.1]; exact Board.kept_refl _
    · split at h
      · cases h
      · split at h
        · split at h
          · cases h
          · rename_i board hset
            split at h <;>
              (simp at h; rw [← h.2.1]; exact cellSet_kept hset (by decide))
        · simp at h; rw [← h.2.1]; exact Board.kept_refl _
  · simp at h; rw [← h.2.1]; exact Board.kept_refl _

/-- C16 (as amended): an iteration of the loop keeps both boards' width and
height and leaves every Ship or Hit cell non-Empty, unless the line is a `B`
line that `beginPacket` accepts; a later `B w h` with `w ≥ 10` and `h ≥ 10`
after which the loop goes on was granted its allocations and is accepted
like the first one: it replaces both boards by empty `w × h` boards. -/
theorem boards_kept_unless_begin (alloc : Alloc) (heap1 heap2 : Heap) (s s1 : Session)
    (b : Bool) (h : gameLoopBody alloc heap1 heap2 s = .ok (s1, b)) :
    ((∀ buffer rest,
        processCommands (if s.turn = 0 then s.input1 else s.input2) = some (buffer, rest) →
        buffer.head? = some 'B' →
        ∀ r, beginPacket alloc buffer s.player1 s.player2 = .ok r → r.1 = 0) →
      Board.kept s.player1.board s1.player1.board ∧
      Board.kept s.player2.board s1.player2.board) ∧
    (∀ buffer rest w hh,
      processCommands (if s.turn = 0 then s.input1 else s.input2) = some (buffer, rest) →
      buffer.head? = some 'B' → sscanf 'B' 2 buffer = [w, hh] → w ≥ 10 → hh ≥ 10 →
      (boardGranted alloc 0 w hh ∧ boardGranted alloc (1 + hh.toNat) w hh) ∧
      s1.player1.board = blankBoard w hh ∧ s1.player2.board = blankBoard w hh) := by
  have hturn := gameLoopBody_turn_ok h
  have h10 : ¬ ((1 : Int) = 0) := by decide
  constructor
  · intro hnoB
    cases hread : processCommands (if s.turn = 0 then s.input1 else s.input2) with
    | none =>
      rw [gameLoopBody_eof hturn hread] at h
      simp only [Except.ok.injEq, Prod.mk.injEq] at h
      rw [← h.1]
      exact ⟨Board.kept_refl _, Board.kept_refl _⟩
    | some br =>
      obtain ⟨buffer, rest⟩ := br
      by_cases hB : buffer.head? = some 'B'
      · have hzero := hnoB buffer rest hread hB
        rw [gameLoopBody_begin hturn hread hB] at h
        rcases beginPacket_cases alloc buffer s.player1 s.player2 with hbp | hbp | hbp | hbp
        · simp [hbp] at h
        · obtain ⟨q1, q2, hbp⟩ := hbp
          have hone : (1 : Int) = 0 := hzero _ hbp
          exact absurd hone (by decide)
        · simp only [hbp, if_true, Except.ok.injEq, Prod.mk.injEq] at h
          rw [← h.1]
          rcases hturn with ht | ht <;>
            simp [Session.write, ht, Board.kept_refl]
        · simp only [hbp, if_true, Except.ok.injEq, Prod.mk.injEq] at h
          rw [← h.1]
          rcases hturn with ht | ht <;>
            simp [Session.write, ht, Board.kept_refl]
      · by_cases hS : buffer.head? = some 'S'
        · rw [gameLoopBody_place hturn hread hS] at h
          cases hsp : handleShipPlacement heap1 heap2
              (if s.turn = 0 then s.player1 else s.player2) buffer with
          | error f => simp [hsp] at h
          | ok r =>
            obtain ⟨p, lines⟩ := r
            have hk := handleShipPlacement_kept hsp
            simp only [hsp, Except.ok.injEq, Prod.mk.injEq] at h
            rw [← h.1]
            rcases hturn with ht | ht
            · simp only [ht, if_true] at hk
              simp [Session.write, Session.setPlayer, ht, Board.kept_refl, hk]
            · simp only [ht, h10, if_false] at hk
              simp [Session.write, Session.setPlayer, ht, Board.kept_refl, hk]
        · by_cases hF : buffer.head? = some 'F'
          · rw [gameLoopBody_shoot hturn hread hF] at h
            cases hsp : handleShootPacket buffer (if s.turn = 0 then s.player1 else s.player2)
                (if s.turn = 0 then s.player2 else s.player1) with
            | error f => simp [hsp] at h
            | ok r =>
              obtain ⟨p, o, lines⟩ := r
              have hk := handleShootPacket_kept hsp
              have hp := handleShootPacket_player hsp
              subst hp
              simp only [hsp, Except.ok.injEq, Prod.mk.injEq] at h
              rw [← h.1]
              rcases hturn with ht | ht
              · simp only [ht, if_true] at hk
                simp [Session.write, Session.setPlayer, ht, Board.kept_refl, hk]
              · simp only [ht, h10, if_false] at hk
                simp [Session.write, Session.setPlayer, ht, Board.kept_refl, hk]
          · rw [gameLoopBody_other hturn hread hB hS hF] at h
            simp only [Except.ok.injEq, Prod.mk.injEq] at h
            rw [← h.1]
            rcases hturn with ht | ht <;>
              simp [ht, Board.kept_refl]
  · intro buffer rest w hh hread hB hscan hw hhh
    have hwr := sscanf_range w (by rw [hscan]; simp)
    have hhr := sscanf_range hh (by rw [hscan]; simp)
    have hcond : w ≥ 10 ∧ hh ≥ 10 := ⟨hw, hhh⟩
    obtain ⟨hok1, hno1⟩ := initializeBoard_granted alloc 0 (by omega : (0 : Int) ≤ w) hwr.2
      (by omega : (0 : Int) ≤ hh) hhr.2
    obtain ⟨hok2, hno2⟩ := initializeBoard_granted alloc (1 + hh.toNat)
      (by omega : (0 : Int) ≤ w) hwr.2 (by omega : (0 : Int) ≤ hh) hhr.2
    rw [gameLoopBody_begin hturn hread hB] at h
    by_cases hg1 : boardGranted alloc 0 w hh
    · by_cases hg2 : boardGranted alloc (1 + hh.toNat) w hh
      · refine ⟨⟨hg1, hg2⟩, ?_⟩
        have hbp : beginPacket alloc buffer s.player1 s.player2 =
            .ok (1, ({ s.player1 with board := blankBoard w hh, shipsRemaining := 5 } : Player),
              ({ s.player2 with board := blankBoard w hh, shipsRemaining := 5 } : Player),
              [Reply.ack]) := by
          simp only [beginPacket, hscan, hcond, and_self, if_true, hok1 hg1, hok2 hg2]
        simp only [hbp, h10, if_false, Except.ok.injEq, Prod.mk.injEq] at h
        rw [← h.1]
        rcases hturn with ht | ht <;>
          simp [Session.write, ht]
      · exfalso
        have hbp : beginPacket alloc buffer s.player1 s.player2 = .error Fault.allocation := by
          simp only [beginPacket, hscan, hcond, and_self, if_true, hok1 hg1, hno2 hg2]
        simp [hbp] at h
    · exfalso
      have hbp : beginPacket alloc buffer s.player1 s.player2 = .error Fault.allocation := by
        simp only [beginPacket, hscan, hcond, and_self, if_true, hno1 hg1]
      simp [hbp] at h

theorem boards_kept_unless_begin_witness :
    gameLoopBody plenty freshHeap freshHeap (session10 ["B 12 11".toList])
      = .ok (session12, true) ∧
    session12.player1.board = blankBoard 12 11 ∧
    session12.player2.board = blankBoard 12 11 := by
  have h := boards_kept_unless_begin plenty freshHeap freshHeap (session10 ["B 12 11".toList])
    session12 true (by decide)
  exact ⟨by decide,
    (h.2 "B 12 11".toList [] 12 11 (by decide) (by decide) (by decide) (by decide)
      (by decide)).2⟩

/-- C16 (the claim fails as stated): in the session `rebeginSession`, after
`B 10 10` and the placement `S 0 0 2 1` player 2's board is 10 × 10 with cell
(1,0) Ship; the later line `B 12 11` is answered `A`, and the board is then
12 wide and 11 high with cell (1,0) Empty. -/
theorem board_dimensions_fixed_counterexample :
    (gameLoopN (fun _ => plenty) (fun _ => freshHeap) 2 rebeginSession).map
        (fun r => (r.1.player2.board.width, r.1.player2.board.height,
          cellAt r.1.player2.board 1 0, r.1.output1))
      = .ok (10, 10, some 1, [Reply.ack]) ∧
    (gameLoopN (fun _ => plenty) (fun _ => freshHeap) 3 rebeginSession).map
        (fun r => (r.1.player2.board.width, r.1.player2.board.height,
          cellAt r.1.player2.board 1 0, r.1.output1))
      = .ok (12, 11, some 0, [Reply.ack, Reply.ack]) := by
  decide

end Hw4
